import Mathlib

/-!
Verification of the batch orchestration engine of the NanobananaPro batch
repository (batch_processor.py and database.py), as a shallow embedding.

Modelling conventions:
* Python strings are Lean `String`; Python truthiness of an optional string
  (`if x:` where `x : Optional[str]`) is `pyTruthyStr`.
* The SQLite tables are Lean lists of row structures; each single-statement
  operation of database.py is a pure function on those lists.
* `random.choice` draws are resolved by an oracle `rng : Nat → Nat` giving the
  index of each successive draw (taken modulo the list length).
* Filesystem reads are resolved by an oracle; a `none` result models the
  exception branch of the Python code.
* The MD5 digest of `_generate_combination_hash` is modelled by its preimage
  string `face ++ sep ++ outfit ++ ...` itself: equal tuples get equal hashes,
  which is the only property of MD5 the dedup logic relies on.
-/

namespace NanoBatch

/-! ### Python string primitives -/

/-- Python substring test (the operator `needle in haystack`), on char lists. -/
def hasSub (hay needle : List Char) : Bool :=
  if needle.isPrefixOf hay then true
  else
    match hay with
    | [] => false
    | _ :: t => hasSub t needle

/-- Python truthiness of an `Optional[str]`: `None` and the empty string are falsy. -/
def pyTruthyStr : Option String → Bool
  | none => false
  | some s => s ≠ ""

/-- Python `x or d` for an optional string `x`. -/
def pyOr (x : Option String) (d : String) : String :=
  match x with
  | none => d
  | some s => if s = "" then d else s

/-- Python truthiness of an `Optional[dict]` (modelled as an association list). -/
def pyTruthyDict : Option (List (String × String)) → Bool
  | none => false
  | some l => !l.isEmpty

/-- The basename of a path: the part after the last slash (POSIX behaviour of
`pathlib.Path.name`). -/
def pyName (p : String) : String :=
  String.mk ((p.data.reverse.takeWhile (fun c => c ≠ '/')).reverse)

/-- Index of the last occurrence of a dot in a char list, if any. -/
def lastDotIdx (cs : List Char) : Option Nat :=
  ((List.range cs.length).filter (fun i => cs.getD i ' ' = '.')).getLast?

/-- Python `pathlib.Path.suffix`: the extension of the basename, including the
dot; empty when there is no dot, the dot is leading, or the dot is last. -/
def pySuffix (p : String) : String :=
  let cs := (pyName p).data
  match lastDotIdx cs with
  | none => ""
  | some i => if 0 < i ∧ i < cs.length - 1 then String.mk (cs.drop i) else ""

/-- Python `pathlib.Path.stem`: the basename with the suffix removed. -/
def pyStem (p : String) : String :=
  let cs := (pyName p).data
  match lastDotIdx cs with
  | none => String.mk cs
  | some i => if 0 < i ∧ i < cs.length - 1 then String.mk (cs.take i) else String.mk cs

/-- The string order used to model Python `sorted` (lexicographic); insertion
sort is used as the sorting algorithm, which agrees with any stable sort on
string keys (equal keys are identical strings). -/
def strLeP : String → String → Prop := fun a b => a ≤ b

instance : DecidableRel strLeP := fun a b => inferInstanceAs (Decidable (a ≤ b))

instance : IsTotal String strLeP := ⟨fun a b => le_total a b⟩

instance : IsTrans String strLeP := ⟨fun _ _ _ hab hbc => le_trans hab hbc⟩

/-- Python `str.lower()`, modelled as character-wise ASCII lowering (the
messages and keywords involved are ASCII). -/
def pyLower (s : String) : String := String.mk (s.data.map Char.toLower)

/-- Python `str.strip()`: remove leading and trailing whitespace. -/
def pyStrip (s : String) : String :=
  String.mk (((s.data.dropWhile Char.isWhitespace).reverse.dropWhile
    Char.isWhitespace).reverse)

/-- Leftmost, non-overlapping replacement of every occurrence of a nonempty
pattern, with explicit fuel (one unit per consumed character). -/
def replaceFuel (pattern replacement : List Char) : Nat → List Char → List Char
  | 0, hay => hay
  | _ + 1, [] => []
  | fuel + 1, c :: t =>
    if pattern.isPrefixOf (c :: t) then
      replacement ++ replaceFuel pattern replacement fuel ((c :: t).drop pattern.length)
    else c :: replaceFuel pattern replacement fuel t

/-- Python `str.replace(pattern, replacement)` for the nonempty literal
placeholder patterns `_build_prompt` uses. -/
def pyReplace (s pattern replacement : String) : String :=
  if pattern = "" then s
  else String.mk (replaceFuel pattern.data replacement.data s.data.length s.data)

/-! ### Failure classifier (`BatchProcessor._is_content_policy_error`) -/

/-- The fixed keyword list `content_error_keywords` of
`_is_content_policy_error` (batch_processor.py lines 216-231). -/
def contentErrorKeywords : List String :=
  ["nsfw",
   "content policy",
   "content_policy",
   "policy violation",
   "inappropriate",
   "safety",
   "moderation",
   "banned",
   "prohibited",
   "explicit",
   "adult content",
   "violates",
   "not allowed",
   "restricted"]

/-- `BatchProcessor._is_content_policy_error`: empty message is not a policy
error; otherwise lower-case the message and look for any keyword. -/
def isContentPolicyError (errorMessage : String) : Bool :=
  if errorMessage = "" then false
  else
    let errorLower := pyLower errorMessage
    contentErrorKeywords.any (fun kw => hasSub errorLower.data kw.data)

/-! ### Database model (database.py)

Tables are lists of rows; each Database method that the claims touch is a pure
function on them. -/

/-- A row of the `used_combinations` table. -/
structure ComboRow where
  batchJobId : Nat
  combinationHash : String
  faceImage : String
  outfitImage : String
  backgroundImage : String
deriving DecidableEq

/-- The `used_combinations` table (the dedup ledger). -/
abbrev Ledger := List ComboRow

/-- `Database.is_combination_used`: SELECT 1 WHERE batch_job_id = ? AND
combination_hash = ?. -/
def isCombinationUsed (db : Ledger) (jobId : Nat) (h : String) : Bool :=
  db.any (fun r => r.batchJobId == jobId && r.combinationHash == h)

/-- `Database.mark_combination_used`: INSERT, with the UNIQUE(batch_job_id,
combination_hash) constraint violation (sqlite3.IntegrityError) swallowed as a
no-op. -/
def markCombinationUsed (db : Ledger) (jobId : Nat) (h face outfit background : String) :
    Ledger :=
  if isCombinationUsed db jobId h then db
  else db ++ [⟨jobId, h, face, outfit, background⟩]

/-- Number of ledger rows for a given (job id, hash) pair. -/
def ledgerPairCount (db : Ledger) (jobId : Nat) (h : String) : Nat :=
  (db.filter (fun r => r.batchJobId == jobId && r.combinationHash == h)).length

/-- A row of the `generation_tasks` table. -/
structure TaskRow where
  id : Nat
  batchJobId : Nat
  apiRequestId : Option String
  status : String
  faceImagePath : String
  outfitImagePath : String
  backgroundImagePath : String
  prompt : String
  resultUrl : Option String
  localPath : Option String
  errorMessage : Option String
  apiResponse : Option (List (String × String))
  createdAt : Nat
  updatedAt : Nat
deriving DecidableEq

instance : Inhabited TaskRow :=
  ⟨⟨0, 0, none, "pending", "", "", "", "", none, none, none, none, 0, 0⟩⟩

/-- `Database.update_task_status`: always sets status and updated_at on the
addressed row; sets each optional column only when the corresponding argument
is truthy (database.py lines 165-198). `now` stands for CURRENT_TIMESTAMP. -/
def updateTaskStatus (table : List TaskRow) (taskId : Nat) (status : String)
    (apiRequestId resultUrl localPath errorMessage : Option String)
    (apiResponse : Option (List (String × String))) (now : Nat) : List TaskRow :=
  table.map fun r =>
    if r.id == taskId then
      { r with
        status := status
        updatedAt := now
        apiRequestId := if pyTruthyStr apiRequestId then apiRequestId else r.apiRequestId
        resultUrl := if pyTruthyStr resultUrl then resultUrl else r.resultUrl
        localPath := if pyTruthyStr localPath then localPath else r.localPath
        errorMessage := if pyTruthyStr errorMessage then errorMessage else r.errorMessage
        apiResponse := if pyTruthyDict apiResponse then apiResponse else r.apiResponse }
    else r

/-- Look up a task row by id (first match, like a primary-key SELECT). -/
def findRow (table : List TaskRow) (taskId : Nat) : Option TaskRow :=
  table.find? (fun r => r.id == taskId)

/-- `Database.create_generation_task`: INSERT a pending task row. -/
def createGenerationTask (table : List TaskRow) (newId batchJobId : Nat)
    (facePath outfitPath backgroundPath prompt : String) : List TaskRow :=
  table ++ [{ id := newId, batchJobId := batchJobId, apiRequestId := none,
              status := "pending", faceImagePath := facePath,
              outfitImagePath := outfitPath, backgroundImagePath := backgroundPath,
              prompt := prompt, resultUrl := none, localPath := none,
              errorMessage := none, apiResponse := none, createdAt := 0, updatedAt := 0 }]

/-- The job-level columns of a `batch_jobs` row that the runner mutates. -/
structure JobRow where
  status : String
  completedCount : Nat
  failedCount : Nat
deriving DecidableEq

/-- `Database.update_batch_job_status`. -/
def updateBatchJobStatus (j : JobRow) (status : String) : JobRow :=
  { j with status := status }

/-- `Database.increment_batch_job_count`: adds 1 to completed_count or
failed_count. -/
def incrementBatchJobCount (j : JobRow) (completed : Bool) : JobRow :=
  if completed then { j with completedCount := j.completedCount + 1 }
  else { j with failedCount := j.failedCount + 1 }

/-- `Database.get_pending_tasks`: tasks of the job with status pending,
ordered by id. -/
def taskIdLe : TaskRow → TaskRow → Prop := fun a b => a.id ≤ b.id

instance : DecidableRel taskIdLe := fun a b => Nat.decLe a.id b.id

def getPendingTasks (table : List TaskRow) (batchJobId : Nat) : List TaskRow :=
  (table.filter (fun r =>
    r.batchJobId == batchJobId && r.status == "pending")).insertionSort taskIdLe

/-! ### Source pools (`ImageSource.__post_init__`, `PromptSource.__post_init__`)

The local filesystem is an oracle mapping a path to what `pathlib` reports:
a directory (with its `iterdir()` entries), a plain file, or nothing. -/

/-- One entry yielded by `Path.iterdir()`: its full path and whether
`is_file()` holds for it. -/
structure DirEntry where
  path : String
  isFile : Bool
deriving DecidableEq

/-- What the filesystem reports for a path. -/
inductive FsNode where
  | dir (entries : List DirEntry)
  | file
  | absent
deriving DecidableEq

/-- A filesystem snapshot. -/
abbrev FS := String → FsNode

/-- The image extension allowlist of `ImageSource._scan_folder`. -/
def imageExtensions : List String := [".jpg", ".jpeg", ".png", ".webp", ".gif"]

/-- `ImageSource._scan_folder`: files of the folder whose lowered suffix is in
the allowlist, sorted. -/
def scanImageFolder (entries : List DirEntry) : List String :=
  ((entries.filter
      (fun e => e.isFile && imageExtensions.contains (pyLower (pySuffix e.path)))).map
    (fun e => e.path)).insertionSort strLeP

/-- `ImageSource.__post_init__`: a directory is scanned; a single existing file
is taken as-is (no extension check); anything else gives an empty pool. -/
def imageSourceFiles (fs : FS) (path : String) : List String :=
  match fs path with
  | .dir entries => scanImageFolder entries
  | .file => [path]
  | .absent => []

/-- `PromptSource._scan_folder`: .txt files of the folder, sorted. -/
def scanPromptFolder (entries : List DirEntry) : List String :=
  ((entries.filter
      (fun e => e.isFile && (pyLower (pySuffix e.path)) == ".txt")).map
    (fun e => e.path)).insertionSort strLeP

/-- `PromptSource.__post_init__`: empty path gives an empty pool; a directory
is scanned; a single file is accepted only with a .txt suffix. -/
def promptSourceFiles (fs : FS) (path : String) : List String :=
  if path = "" then []
  else
    match fs path with
    | .dir entries => scanPromptFolder entries
    | .file => if (pyLower (pySuffix path)) = ".txt" then [path] else []
    | .absent => []

/-! ### Prompt content cache (`PromptSource._read_file`)

Disk reads are resolved by an oracle `readFs : Nat → String → Option String`
giving the outcome of the k-th disk read of the process for a given path
(`none` models the exception branch). The cache is an association list; `k`
counts disk reads performed so far; the returned trace lists the paths
actually read from disk by this call. -/

/-- Result of one `_read_file` call. -/
structure ReadOut where
  content : String
  cache : List (String × String)
  readCount : Nat
  diskReads : List String
deriving DecidableEq

/-- `PromptSource._read_file`: serve from the cache when present; otherwise
read from disk, strip, and cache on success; on failure return empty content
without caching. -/
def readFile (readFs : Nat → String → Option String)
    (cache : List (String × String)) (k : Nat) (p : String) : ReadOut :=
  match cache.lookup p with
  | some c => ⟨c, cache, k, []⟩
  | none =>
    match readFs k p with
    | some raw =>
      let content := pyStrip raw
      ⟨content, cache ++ [(p, content)], k + 1, [p]⟩
    | none => ⟨"", cache, k + 1, [p]⟩

/-! ### Combination selector (`BatchProcessor._select_combination`)

The pools are given as the `files` lists the sources hold after construction
(`none` = source not configured). `random.choice` draws are resolved by the
`rng` oracle, consumed left to right in the order the Python code draws. -/

/-- The configuration fields of `BatchConfig` that the selector, preparation
and runner read. Image/prompt sources are represented by their `files` lists. -/
structure BatchConfig where
  totalCount : Nat
  promptTemplate : String
  faceFiles : Option (List String)
  outfitFiles : Option (List String)
  backgroundFiles : Option (List String)
  promptFiles : Option (List String)
  allowDuplicateCombinations : Bool
  errorFolder : String
deriving DecidableEq

/-- Python truthiness of `source and source.files`. -/
def hasFiles : Option (List String) → Bool
  | none => false
  | some l => !l.isEmpty

/-- `random.choice` resolved by one oracle value. -/
def pyChoice (l : List String) (r : Nat) : String := l.getD (r % l.length) ""

/-- Oracles feeding the selector: the random stream and the disk-read stream. -/
structure SelOracles where
  rng : Nat → Nat
  readFs : Nat → String → Option String

/-- The mutable state the selector threads: the dedup ledger, the prompt
content cache, and the oracle cursors. -/
structure SelState where
  ledger : Ledger
  cache : List (String × String)
  readCount : Nat
  rngCount : Nat
deriving DecidableEq

/-- One image draw of the selector: `src.get_random() or ""` guarded by
`if source and source.files`. -/
def drawImage (ro : SelOracles) (src : Option (List String)) (st : SelState) :
    String × SelState :=
  if hasFiles src then
    (pyChoice (src.getD []) (ro.rng st.rngCount), { st with rngCount := st.rngCount + 1 })
  else ("", st)

/-- `PromptSource.get_random(exclude)`: pick among non-excluded files and read
the chosen file through the cache. -/
def promptGetRandom (ro : SelOracles) (files : List String) (exclude : List String)
    (st : SelState) : Option (String × String) × SelState :=
  if files.isEmpty then (none, st)
  else
    let available := if exclude.isEmpty then files
                     else files.filter (fun f => !exclude.contains f)
    if available.isEmpty then (none, st)
    else
      let selected := pyChoice available (ro.rng st.rngCount)
      let st1 := { st with rngCount := st.rngCount + 1 }
      let r := readFile ro.readFs st1.cache st1.readCount selected
      (some (selected, r.content), { st1 with cache := r.cache, readCount := r.readCount })

/-- A (face, outfit, background, prompt_file) tuple. -/
structure Combo where
  face : String
  outfit : String
  background : String
  promptFile : String
deriving DecidableEq

/-- The all-empty tuple returned by the exhaustion fallback. -/
def emptyCombo : Combo := ⟨"", "", "", ""⟩

/-- `BatchProcessor._generate_combination_hash`. The MD5 digest is modelled by
its preimage string: the dedup logic only needs that equal tuples hash
equally. -/
def combinationHash (face outfit background promptFile : String) : String :=
  face ++ "|" ++ outfit ++ "|" ++ background ++ "|" ++ promptFile

/-- The dedup hash of a tuple. -/
def comboHashOf (c : Combo) : String :=
  combinationHash c.face c.outfit c.background c.promptFile

/-- One dedup-ledger access, for the frame property of C8. -/
inductive LedgerOp where
  | query (jobId : Nat) (h : String)
  | mark (jobId : Nat) (h : String)
deriving DecidableEq

/-- Result of one `_select_combination` call. -/
structure SelOut where
  combo : Combo
  promptContent : String
  state : SelState
  ops : List LedgerOp
deriving DecidableEq

/-- The `max_attempts = 100` bound of `_select_combination`. -/
def maxAttempts : Nat := 100

/-- What one attempt of `_select_combination` draws before the duplicate
check. -/
structure DrawOut where
  face : String
  outfit : String
  background : String
  promptFile : String
  promptContent : String
  state : SelState
deriving DecidableEq

/-- The draw part of one `_select_combination` attempt: the three image draws
in order, then the prompt draw with exclusion and its no-exclusion retry, or
the literal template when no prompt source is configured. -/
def drawPhase (ro : SelOracles) (cfg : BatchConfig) (usedPrompts : List String)
    (st : SelState) : DrawOut :=
  let d1 := drawImage ro cfg.faceFiles st
  let d2 := drawImage ro cfg.outfitFiles d1.2
  let d3 := drawImage ro cfg.backgroundFiles d2.2
  if hasFiles cfg.promptFiles then
    let files := cfg.promptFiles.getD []
    let r1 := promptGetRandom ro files usedPrompts d3.2
    match r1.1 with
    | some pr => ⟨d1.1, d2.1, d3.1, pr.1, pr.2, r1.2⟩
    | none =>
      let r2 := promptGetRandom ro files [] r1.2
      match r2.1 with
      | some pr => ⟨d1.1, d2.1, d3.1, pr.1, pr.2, r2.2⟩
      | none => ⟨d1.1, d2.1, d3.1, "", "", r2.2⟩
  else ⟨d1.1, d2.1, d3.1, "", cfg.promptTemplate, d3.2⟩

/-- The attempt loop of `_select_combination`, with explicit fuel; fuel 0 is
the all-empty fallback return. -/
def selectCombinationGo (ro : SelOracles) (cfg : BatchConfig) (batchJobId : Nat)
    (usedPrompts : List String) : Nat → SelState → SelOut
  | 0, st => ⟨emptyCombo, cfg.promptTemplate, st, []⟩
  | fuel + 1, st =>
    let dp := drawPhase ro cfg usedPrompts st
    if cfg.allowDuplicateCombinations then
      ⟨⟨dp.face, dp.outfit, dp.background, dp.promptFile⟩, dp.promptContent,
       dp.state, []⟩
    else
      let h := combinationHash dp.face dp.outfit dp.background dp.promptFile
      if isCombinationUsed dp.state.ledger batchJobId h then
        let rest := selectCombinationGo ro cfg batchJobId usedPrompts fuel dp.state
        { rest with ops := LedgerOp.query batchJobId h :: rest.ops }
      else
        ⟨⟨dp.face, dp.outfit, dp.background, dp.promptFile⟩, dp.promptContent,
         { dp.state with
           ledger := markCombinationUsed dp.state.ledger batchJobId h dp.face
             dp.outfit dp.background },
         [LedgerOp.query batchJobId h, LedgerOp.mark batchJobId h]⟩

/-- `BatchProcessor._select_combination`. -/
def selectCombination (ro : SelOracles) (cfg : BatchConfig) (batchJobId : Nat)
    (usedPrompts : List String) (st : SelState) : SelOut :=
  selectCombinationGo ro cfg batchJobId usedPrompts maxAttempts st

/-! ### Task preparation (`BatchProcessor.prepare_tasks`) -/

/-- `BatchProcessor._build_prompt`: placeholder substitution with stems. -/
def buildPrompt (template face outfit background : String) : String :=
  let p1 := pyReplace template "{face}" (if face = "" then "" else pyStem face)
  let p2 := pyReplace p1 "{outfit}" (if outfit = "" then "" else pyStem outfit)
  pyReplace p2 "{background}" (if background = "" then "" else pyStem background)

/-- State threaded by the `prepare_tasks` loop. `materialized` records, per
created task, the tuple selected for it. -/
structure PrepState where
  table : List TaskRow
  nextId : Nat
  createdCount : Nat
  usedPrompts : List String
  sel : SelState
  materialized : List Combo
deriving DecidableEq

/-- The loop body of `prepare_tasks`: select, track the prompt file, build the
prompt, and create a task unless the prompt came out empty. -/
def prepareTasksGo (ro : SelOracles) (cfg : BatchConfig) (jobId : Nat) :
    Nat → PrepState → PrepState
  | 0, ps => ps
  | n + 1, ps =>
    let so := selectCombination ro cfg jobId ps.usedPrompts ps.sel
    let c := so.combo
    let used1 := if c.promptFile ≠ "" then ps.usedPrompts ++ [c.promptFile]
                 else ps.usedPrompts
    let prompt := buildPrompt so.promptContent c.face c.outfit c.background
    if prompt = "" then
      prepareTasksGo ro cfg jobId n { ps with usedPrompts := used1, sel := so.state }
    else
      prepareTasksGo ro cfg jobId n
        { table := createGenerationTask ps.table ps.nextId jobId c.face c.outfit
                     c.background prompt
          nextId := ps.nextId + 1
          createdCount := ps.createdCount + 1
          usedPrompts := used1
          sel := so.state
          materialized := ps.materialized ++ [c] }

/-- `BatchProcessor.prepare_tasks` for a whole job. -/
def prepareTasks (ro : SelOracles) (cfg : BatchConfig) (jobId : Nat)
    (table : List TaskRow) (nextId : Nat) (sel0 : SelState) : PrepState :=
  prepareTasksGo ro cfg jobId cfg.totalCount ⟨table, nextId, 0, [], sel0, []⟩

/-! ### Batch runner (`BatchProcessor.run_batch`)

The remote call `api.generate_and_wait` is an oracle from the iteration index
to a `GenerationResult`; the stop flag observations at the two check points of
each iteration are the oracles `stopAt` (the check at the top of the loop
body) and `stopInPause` (a stop observed while parked in the pause loop); the
outcome of each `shutil.move` attempt is the oracle `moveOk`. -/

/-- `api_client.TaskStatus`. -/
inductive TStatus where
  | pending
  | processing
  | completed
  | failed
  | unknown
deriving DecidableEq, BEq

/-- `api_client.GenerationResult` (the fields run_batch reads). -/
structure GenerationResult where
  success : Bool
  taskId : Option String
  status : TStatus
  imageUrl : Option String
  imageUrls : Option (List String)
  error : Option String
  rawResponse : Option (List (String × String))
deriving DecidableEq

/-- The image-url extraction of the success branch: `image_url = result.image_url;
if not image_url and result.image_urls: image_url = result.image_urls[0]`. -/
def pickImageUrl (r : GenerationResult) : Option String :=
  if pyTruthyStr r.imageUrl then r.imageUrl
  else
    match r.imageUrls with
    | some (u :: _) => some u
    | _ => r.imageUrl

/-- The stop signal as observed at either check point of iteration `i`. -/
def stopSig (stopAt stopInPause : Nat → Bool) (i : Nat) : Bool :=
  stopAt i || stopInPause i

/-- Everything the task loop produces: the final table and job row, the
in-memory results counters, and traces of the processing transitions (task
ids, dispatch order) and of the error-image move attempts (iteration index and
outfit path). -/
structure LoopOut where
  table : List TaskRow
  job : JobRow
  resultsCompleted : Nat
  resultsFailed : Nat
  movedImages : Nat
  stopped : Bool
  procTrace : List Nat
  moveTrace : List (Nat × String)
deriving DecidableEq

/-- The per-task loop of `run_batch`, over the pending-task snapshot. -/
def runLoop (cfg : BatchConfig) (stopAt stopInPause moveOk : Nat → Bool)
    (api : Nat → GenerationResult) :
    List TaskRow → Nat → List TaskRow → JobRow → LoopOut
  | [], _, table, job => ⟨table, job, 0, 0, 0, false, [], []⟩
  | t :: rest, i, table, job =>
    if stopSig stopAt stopInPause i then ⟨table, job, 0, 0, 0, true, [], []⟩
    else
      let table1 := updateTaskStatus table t.id "processing" none none none none none i
      let r := api i
      if r.success && (r.status == TStatus.completed) then
        let table2 := updateTaskStatus table1 t.id "completed" r.taskId (pickImageUrl r)
          none none r.rawResponse i
        let job1 := incrementBatchJobCount job true
        let out := runLoop cfg stopAt stopInPause moveOk api rest (i + 1) table2 job1
        { out with
          resultsCompleted := out.resultsCompleted + 1
          procTrace := t.id :: out.procTrace }
      else
        let errorMsg := pyOr r.error "Unknown error"
        let table2 := updateTaskStatus table1 t.id "failed" r.taskId none none
          (some errorMsg) r.rawResponse i
        let job1 := incrementBatchJobCount job false
        let moved :=
          if cfg.errorFolder ≠ "" ∧ t.outfitImagePath ≠ "" then
            if isContentPolicyError errorMsg then
              some (i, t.outfitImagePath, moveOk i)
            else none
          else none
        let out := runLoop cfg stopAt stopInPause moveOk api rest (i + 1) table2 job1
        { out with
          resultsFailed := out.resultsFailed + 1
          movedImages := (match moved with
                          | some (_, _, true) => 1
                          | _ => 0) + out.movedImages
          procTrace := t.id :: out.procTrace
          moveTrace := (match moved with
                        | some (j, p, _) => [(j, p)]
                        | none => []) ++ out.moveTrace }

/-- The full result of one `run_batch` call. -/
structure RunOutcome where
  table : List TaskRow
  job : JobRow
  resultsTotal : Nat
  resultsCompleted : Nat
  resultsFailed : Nat
  movedImages : Nat
  stopped : Bool
  procTrace : List Nat
  moveTrace : List (Nat × String)
deriving DecidableEq

/-- `BatchProcessor.run_batch`: mark the job running, snapshot the pending
tasks, run the loop, and persist the final status (stopped or completed). The
model covers exactly the exception-free executions: the remote call returns a
`GenerationResult` in all cases, as `generate_and_wait` does. -/
def runBatch (cfg : BatchConfig) (stopAt stopInPause moveOk : Nat → Bool)
    (api : Nat → GenerationResult) (table : List TaskRow) (job : JobRow)
    (jobId : Nat) : RunOutcome :=
  let job0 := updateBatchJobStatus job "running"
  let pending := getPendingTasks table jobId
  let lo := runLoop cfg stopAt stopInPause moveOk api pending 0 table job0
  let finalStatus := if lo.stopped then "stopped" else "completed"
  { table := lo.table
    job := updateBatchJobStatus lo.job finalStatus
    resultsTotal := pending.length
    resultsCompleted := lo.resultsCompleted
    resultsFailed := lo.resultsFailed
    movedImages := lo.movedImages
    stopped := lo.stopped
    procTrace := lo.procTrace
    moveTrace := lo.moveTrace }

/-! ### Concrete instances used to settle the claims on explicit inputs -/

/-- Initial selector state: empty ledger, empty prompt cache, cursors at 0. -/
def selState0 : SelState := ⟨[], [], 0, 0⟩

/-- Degenerate oracles: every random draw picks index 0, every disk read
fails. -/
def roZero : SelOracles := ⟨fun _ => 0, fun _ _ => none⟩

/-- Three face images, no other pools, three tasks requested, duplicates
disallowed: pool size equals the requested count. -/
def cfgFaces3 : BatchConfig :=
  ⟨3, "p", some ["a", "b", "c"], none, none, none, false, ""⟩

/-- One face image, duplicates allowed. -/
def cfgDupAllowed : BatchConfig :=
  ⟨2, "p", some ["a"], none, none, none, true, ""⟩

/-- A filesystem holding exactly one plain file at path photo.bmp. -/
def fsSingleBmp : FS := fun p => if p = "photo.bmp" then FsNode.file else FsNode.absent

/-- A disk-read oracle whose first read fails and whose later reads return
"hello". -/
def readFsFlaky : Nat → String → Option String :=
  fun k _ => if k = 0 then none else some "hello"

/-- A directory with two images, one text file and a subdirectory. -/
def fsDirDemo : FS := fun p =>
  if p = "d" then
    FsNode.dir [⟨"d/b.png", true⟩, ⟨"d/a.JPG", true⟩, ⟨"d/notes.txt", true⟩,
                ⟨"d/sub", false⟩]
  else FsNode.absent

/-- One pending task whose outfit path is o.png, for the move-gating run. -/
def taskWithOutfit : TaskRow :=
  { id := 1, batchJobId := 7, apiRequestId := none, status := "pending",
    faceImagePath := "", outfitImagePath := "o.png", backgroundImagePath := "",
    prompt := "p", resultUrl := none, localPath := none, errorMessage := none,
    apiResponse := none, createdAt := 0, updatedAt := 0 }

/-- A config with an error folder set. -/
def cfgErrFolder : BatchConfig :=
  ⟨1, "p", none, none, none, none, false, "err"⟩

/-- A remote result that fails with an NSFW message. -/
def apiNsfwFail : Nat → GenerationResult :=
  fun _ => ⟨false, some "req1", TStatus.failed, none, none,
            some "NSFW content detected", none⟩

/-- A fresh job row. -/
def jobRow0 : JobRow := ⟨"pending", 0, 0⟩

/-- The always-false signal. -/
def sigNever : Nat → Bool := fun _ => false

/-- A stop signal observed from iteration 1 on. -/
def sigFrom1 : Nat → Bool := fun i => decide (1 ≤ i)

/-- Two pending tasks of job 7, for the stop-semantics run. -/
def twoTasks : List TaskRow :=
  [taskWithOutfit,
   { id := 2, batchJobId := 7, apiRequestId := none, status := "pending",
     faceImagePath := "f.png", outfitImagePath := "", backgroundImagePath := "",
     prompt := "q", resultUrl := none, localPath := none, errorMessage := none,
     apiResponse := none, createdAt := 0, updatedAt := 0 }]

/-! ## Theorems -/

/-! ### Dedup ledger (claim C9) -/

theorem isCombinationUsed_append (db1 db2 : Ledger) (j : Nat) (h : String) :
    isCombinationUsed (db1 ++ db2) j h =
      (isCombinationUsed db1 j h || isCombinationUsed db2 j h) := by
  simp [isCombinationUsed, List.any_append]

theorem isCombinationUsed_mark_self (db : Ledger) (j : Nat) (h f o b : String) :
    isCombinationUsed (markCombinationUsed db j h f o b) j h = true := by
  by_cases hu : isCombinationUsed db j h
  · simp [markCombinationUsed, hu]
  · simp only [markCombinationUsed, hu, if_false, Bool.false_eq_true]
    simp [isCombinationUsed, List.any_append]

theorem markCombinationUsed_of_used (db : Ledger) (j : Nat) (h f o b : String)
    (hu : isCombinationUsed db j h = true) :
    markCombinationUsed db j h f o b = db := by
  simp [markCombinationUsed, hu]

theorem ledgerPairCount_zero_iff (db : Ledger) (j : Nat) (h : String) :
    ledgerPairCount db j h = 0 ↔ isCombinationUsed db j h = false := by
  simp [ledgerPairCount, isCombinationUsed, List.length_eq_zero,
    List.filter_eq_nil_iff, List.any_eq_false]

/-- C9: `mark_combination_used` is idempotent: a second call with the same
(job, hash) pair is a no-op (the UNIQUE constraint violation is swallowed),
and starting from a ledger with no row for the pair, two calls leave exactly
one row for it. -/
theorem mark_combination_used_idempotent (db : Ledger) (jobId : Nat)
    (h f1 o1 b1 f2 o2 b2 : String) :
    markCombinationUsed (markCombinationUsed db jobId h f1 o1 b1) jobId h f2 o2 b2 =
      markCombinationUsed db jobId h f1 o1 b1 ∧
    (ledgerPairCount db jobId h = 0 →
      ledgerPairCount
        (markCombinationUsed (markCombinationUsed db jobId h f1 o1 b1) jobId h f2 o2 b2)
        jobId h = 1) := by
  have hself := isCombinationUsed_mark_self db jobId h f1 o1 b1
  have hnoop := markCombinationUsed_of_used
    (markCombinationUsed db jobId h f1 o1 b1) jobId h f2 o2 b2 hself
  refine ⟨hnoop, fun h0 => ?_⟩
  rw [hnoop]
  have hfalse : isCombinationUsed db jobId h = false :=
    (ledgerPairCount_zero_iff db jobId h).mp h0
  have hmark : markCombinationUsed db jobId h f1 o1 b1 =
      db ++ [⟨jobId, h, f1, o1, b1⟩] := by
    simp [markCombinationUsed, hfalse]
  rw [hmark]
  have h0' : (db.filter
      (fun r => r.batchJobId == jobId && r.combinationHash == h)).length = 0 := h0
  simp [ledgerPairCount, List.filter_append, h0']

/-- Closed witness for C9 at a concrete ledger. -/
theorem mark_combination_used_idempotent_witness :
    ledgerPairCount
      (markCombinationUsed (markCombinationUsed [] 1 "h" "f" "o" "b") 1 "h" "f" "o" "b")
      1 "h" = 1 :=
  (mark_combination_used_idempotent [] 1 "h" "f" "o" "b" "f" "o" "b").2 (by decide)

/-! ### Task-row update frame (claim C10) -/

/-- C10: `update_task_status` rewrites only the addressed row; on that row it
sets status and updated_at, sets each optional column exactly when the
corresponding argument is truthy (a `None` or empty-string argument leaves the
stored value unchanged), and leaves every other column and every other row
untouched. -/
theorem update_task_status_frame
    (table : List TaskRow) (taskId : Nat) (status : String)
    (apiRequestId resultUrl localPath errorMessage : Option String)
    (apiResponse : Option (List (String × String))) (now : Nat) (k : Nat) (r : TaskRow)
    (hk : table[k]? = some r) :
    (r.id ≠ taskId →
      (updateTaskStatus table taskId status apiRequestId resultUrl localPath
        errorMessage apiResponse now)[k]? = some r) ∧
    (r.id = taskId →
      ∃ r2, (updateTaskStatus table taskId status apiRequestId resultUrl localPath
          errorMessage apiResponse now)[k]? = some r2 ∧
        r2.status = status ∧ r2.updatedAt = now ∧
        r2.id = r.id ∧ r2.batchJobId = r.batchJobId ∧
        r2.faceImagePath = r.faceImagePath ∧ r2.outfitImagePath = r.outfitImagePath ∧
        r2.backgroundImagePath = r.backgroundImagePath ∧ r2.prompt = r.prompt ∧
        r2.createdAt = r.createdAt ∧
        r2.apiRequestId = (if pyTruthyStr apiRequestId then apiRequestId
                           else r.apiRequestId) ∧
        r2.resultUrl = (if pyTruthyStr resultUrl then resultUrl else r.resultUrl) ∧
        r2.localPath = (if pyTruthyStr localPath then localPath else r.localPath) ∧
        r2.errorMessage = (if pyTruthyStr errorMessage then errorMessage
                           else r.errorMessage) ∧
        r2.apiResponse = (if pyTruthyDict apiResponse then apiResponse
                          else r.apiResponse)) := by
  have hmap : (updateTaskStatus table taskId status apiRequestId resultUrl localPath
      errorMessage apiResponse now)[k]? =
      Option.map (fun r =>
        if r.id == taskId then
          { r with
            status := status
            updatedAt := now
            apiRequestId := if pyTruthyStr apiRequestId then apiRequestId
                            else r.apiRequestId
            resultUrl := if pyTruthyStr resultUrl then resultUrl else r.resultUrl
            localPath := if pyTruthyStr localPath then localPath else r.localPath
            errorMessage := if pyTruthyStr errorMessage then errorMessage
                            else r.errorMessage
            apiResponse := if pyTruthyDict apiResponse then apiResponse
                           else r.apiResponse }
        else r) table[k]? := by
    simp [updateTaskStatus]
  constructor
  · intro hne
    rw [hmap, hk]
    have hbeq : (r.id == taskId) = false := by simp [hne]
    rw [Option.map_some', if_neg (by simp [hbeq])]
  · intro heq
    rw [hmap, hk]
    have hbeq : (r.id == taskId) = true := by simp [heq]
    rw [Option.map_some', if_pos hbeq]
    exact ⟨_, rfl, rfl, rfl, rfl, rfl, rfl, rfl, rfl, rfl, rfl, rfl, rfl, rfl, rfl, rfl⟩

/-- Closed witness for C10: marking a task failed with no result_url argument
keeps the stored result_url. -/
theorem update_task_status_frame_witness :
    ∃ r2, (updateTaskStatus [taskWithOutfit] 1 "failed" none none none (some "x")
        none 5)[0]? = some r2 ∧
      r2.status = "failed" ∧ r2.resultUrl = taskWithOutfit.resultUrl := by
  have h := (update_task_status_frame [taskWithOutfit] 1 "failed" none none none
    (some "x") none 5 0 taskWithOutfit rfl).2 rfl
  obtain ⟨r2, hr2, hst, _, _, _, _, _, _, _, _, _, hurl, _⟩ := h
  exact ⟨r2, hr2, hst, by rw [hurl]; rfl⟩

/-! ### Failure classifier (claim C5) -/

theorem hasSub_correct (hay needle : List Char) :
    hasSub hay needle = true ↔ needle <:+: hay := by
  induction hay with
  | nil =>
    rw [hasSub]
    constructor
    · intro h
      have : needle.isPrefixOf ([] : List Char) = true := by
        by_contra hn
        simp [hn] at h
      exact (List.isPrefixOf_iff_prefix.mp this).isInfix
    · intro h
      have : needle = [] := List.eq_nil_of_infix_nil h
      simp [this]
  | cons a t ih =>
    rw [hasSub]
    by_cases hp : needle.isPrefixOf (a :: t) = true
    · simp only [hp, if_true, true_iff]
      exact (List.isPrefixOf_iff_prefix.mp hp).isInfix
    · rw [if_neg hp, ih]
      constructor
      · intro h
        exact h.trans (List.suffix_cons a t).isInfix
      · intro h
        rcases List.infix_cons_iff.mp h with h1 | h2
        · exact absurd (List.isPrefixOf_iff_prefix.mpr h1) hp
        · exact h2

/-- C5: the failure classifier is the pure predicate that lower-cases its
input and tests the fixed keyword set for substring occurrence: it returns
true exactly when some keyword of `content_error_keywords` occurs in the
lowered message; every message whose lowering contains "nsfw content
detected" (i.e. containing that phrase in any letter casing) classifies as a
content-policy error, and "HTTP 500 Internal Server Error" does not. -/
theorem is_content_policy_error_spec :
    (∀ msg : String, isContentPolicyError msg = true ↔
        ∃ kw ∈ contentErrorKeywords, kw.data <:+: (pyLower msg).data) ∧
    (∀ msg : String, "nsfw content detected".data <:+: (pyLower msg).data →
        isContentPolicyError msg = true) ∧
    isContentPolicyError "HTTP 500 Internal Server Error" = false := by
  have hiff : ∀ msg : String, isContentPolicyError msg = true ↔
      ∃ kw ∈ contentErrorKeywords, kw.data <:+: (pyLower msg).data := by
    intro msg
    by_cases hemp : msg = ""
    · subst hemp
      have hL : isContentPolicyError "" = false := rfl
      rw [hL]
      simp only [Bool.false_eq_true, false_iff]
      rintro ⟨kw, hkw, hsub⟩
      have hnil : kw.data = [] := List.eq_nil_of_infix_nil hsub
      obtain ⟨cs⟩ := kw
      have hcs : cs = [] := hnil
      subst hcs
      exact absurd hkw (by decide)
    · rw [isContentPolicyError, if_neg hemp]
      rw [List.any_eq_true]
      constructor
      · rintro ⟨kw, hkw, hsub⟩
        exact ⟨kw, hkw, (hasSub_correct _ _).mp hsub⟩
      · rintro ⟨kw, hkw, hsub⟩
        exact ⟨kw, hkw, (hasSub_correct _ _).mpr hsub⟩
  refine ⟨hiff, fun msg h => ?_, by decide⟩
  refine (hiff msg).mpr ⟨"nsfw", by decide, ?_⟩
  have hpre : ("nsfw".data : List Char) <+: "nsfw content detected".data :=
    List.isPrefixOf_iff_prefix.mp (by decide)
  exact hpre.isInfix.trans h

/-- Closed witness for C5: a mixed-case NSFW message classifies as
content-policy. -/
theorem is_content_policy_error_spec_witness :
    isContentPolicyError "Blocked: NSFW Content Detected!" = true :=
  is_content_policy_error_spec.2.1 "Blocked: NSFW Content Detected!"
    ((hasSub_correct (pyLower "Blocked: NSFW Content Detected!").data
        "nsfw content detected".data).mp (by decide))

/-! ### Source pools (claim C7) -/

/-- C7 counterexample: `ImageSource` built on a single existing file whose
extension is NOT in the allowlist still yields a one-entry pool, where the
claim requires an empty pool. -/
theorem image_source_single_file_cex :
    fsSingleBmp "photo.bmp" = FsNode.file ∧
    imageExtensions.contains (pyLower (pySuffix "photo.bmp")) = false ∧
    imageSourceFiles fsSingleBmp "photo.bmp" = ["photo.bmp"] := by
  decide

/-- C7 (amended): for a directory, both pools hold exactly the contained
files matching the respective extension allowlist (images:
.jpg/.jpeg/.png/.webp/.gif; prompts: .txt), in sorted order; for a single
existing file the prompt pool applies the .txt check but the image pool
accepts the file whatever its extension; a nonexistent path yields empty
pools. -/
theorem source_pool_construction (fs : FS) (path : String) :
    (∀ entries, fs path = FsNode.dir entries →
      ((imageSourceFiles fs path).Perm
          ((entries.filter (fun e => e.isFile &&
              imageExtensions.contains (pyLower (pySuffix e.path)))).map
            (fun e => e.path)) ∧
        (imageSourceFiles fs path).Pairwise strLeP ∧
        (path ≠ "" →
          (promptSourceFiles fs path).Perm
            ((entries.filter (fun e => e.isFile &&
                ((pyLower (pySuffix e.path)) == ".txt"))).map (fun e => e.path)) ∧
          (promptSourceFiles fs path).Pairwise strLeP))) ∧
    (fs path = FsNode.file →
      imageSourceFiles fs path = [path] ∧
      (path ≠ "" →
        promptSourceFiles fs path =
          (if (pyLower (pySuffix path)) = ".txt" then [path] else []))) ∧
    (fs path = FsNode.absent →
      imageSourceFiles fs path = [] ∧ promptSourceFiles fs path = []) := by
  refine ⟨?_, ?_, ?_⟩
  · intro entries hdir
    have himg : imageSourceFiles fs path = scanImageFolder entries := by
      simp [imageSourceFiles, hdir]
    refine ⟨?_, ?_, ?_⟩
    · rw [himg, scanImageFolder]
      exact List.perm_insertionSort _ _
    · rw [himg, scanImageFolder]
      exact List.sorted_insertionSort _ _
    · intro hne
      have hpr : promptSourceFiles fs path = scanPromptFolder entries := by
        rw [promptSourceFiles, if_neg hne, hdir]
      refine ⟨?_, ?_⟩
      · rw [hpr, scanPromptFolder]
        exact List.perm_insertionSort _ _
      · rw [hpr, scanPromptFolder]
        exact List.sorted_insertionSort _ _
  · intro hfile
    constructor
    · simp [imageSourceFiles, hfile]
    · intro hne
      rw [promptSourceFiles, if_neg hne, hfile]
  · intro habs
    constructor
    · simp [imageSourceFiles, habs]
    · by_cases hne : path = ""
      · rw [promptSourceFiles, if_pos hne]
      · rw [promptSourceFiles, if_neg hne, habs]

/-- Closed witness for C7 at a concrete directory and single file. -/
theorem source_pool_construction_witness :
    imageSourceFiles fsSingleBmp "photo.bmp" = ["photo.bmp"] ∧
    (imageSourceFiles fsDirDemo "d").Perm ["d/b.png", "d/a.JPG"] := by
  constructor
  · exact ((source_pool_construction fsSingleBmp "photo.bmp").2.1 (by decide)).1
  · have h := ((source_pool_construction fsDirDemo "d").1
      [⟨"d/b.png", true⟩, ⟨"d/a.JPG", true⟩, ⟨"d/notes.txt", true⟩, ⟨"d/sub", false⟩]
      (by decide)).1
    have he : (([⟨"d/b.png", true⟩, ⟨"d/a.JPG", true⟩, ⟨"d/notes.txt", true⟩,
        ⟨"d/sub", false⟩] : List DirEntry).filter (fun e => e.isFile &&
          imageExtensions.contains (pyLower (pySuffix e.path)))).map
        (fun e => e.path) = ["d/b.png", "d/a.JPG"] := by decide
    rw [he] at h
    exact h

/-! ### Prompt content cache (claim C6) -/

/-- C6 counterexample: when the first disk read of a path fails, the failure
is not cached, so a second request reads the disk again — the path is read
twice in one process lifetime and the two requests return different
strings. -/
theorem read_file_cache_cex :
    (readFile readFsFlaky [] 0 "p").diskReads = ["p"] ∧
    (readFile readFsFlaky (readFile readFsFlaky [] 0 "p").cache
        (readFile readFsFlaky [] 0 "p").readCount "p").diskReads = ["p"] ∧
    (readFile readFsFlaky [] 0 "p").content = "" ∧
    (readFile readFsFlaky (readFile readFsFlaky [] 0 "p").cache
        (readFile readFsFlaky [] 0 "p").readCount "p").content = "hello" := by
  decide

/-- C6 (amended): `_read_file` is exception-free; a cache hit performs no disk
read and returns the cached string unchanged; a successful disk read strips
and caches the content, and every later request for that path is then served
from the cache, returning the same string with no further disk read; a FAILED
disk read returns empty content but does not cache, so the at-most-one-read
guarantee holds only once some read has succeeded. -/
theorem read_file_cache_spec (readFs : Nat → String → Option String)
    (cache : List (String × String)) (k : Nat) (p : String) :
    (∀ c, cache.lookup p = some c →
      readFile readFs cache k p = ⟨c, cache, k, []⟩) ∧
    (cache.lookup p = none → readFs k p = none →
      readFile readFs cache k p = ⟨"", cache, k + 1, [p]⟩) ∧
    (∀ raw, cache.lookup p = none → readFs k p = some raw →
      readFile readFs cache k p =
        ⟨pyStrip raw, cache ++ [(p, pyStrip raw)], k + 1, [p]⟩) ∧
    ((readFile readFs cache k p).cache.lookup p ≠ none →
      readFile readFs (readFile readFs cache k p).cache
          (readFile readFs cache k p).readCount p =
        ⟨(readFile readFs cache k p).content, (readFile readFs cache k p).cache,
         (readFile readFs cache k p).readCount, []⟩) := by
  refine ⟨?_, ?_, ?_, ?_⟩
  · intro c hc
    rw [readFile, hc]
  · intro hc hf
    rw [readFile, hc, hf]
  · intro raw hc hf
    rw [readFile, hc, hf]
  · intro hne
    rcases hlook : cache.lookup p with _ | c
    · rcases hread : readFs k p with _ | raw
      · have h0 : readFile readFs cache k p = ⟨"", cache, k + 1, [p]⟩ := by
          rw [readFile, hlook, hread]
        rw [h0] at hne
        exact absurd hlook hne
      · have h1 : readFile readFs cache k p =
            ⟨pyStrip raw, cache ++ [(p, pyStrip raw)], k + 1, [p]⟩ := by
          rw [readFile, hlook, hread]
        have h2 : (cache ++ [(p, pyStrip raw)]).lookup p = some (pyStrip raw) := by
          rw [List.lookup_append, hlook]
          simp
        rw [h1]
        show readFile readFs (cache ++ [(p, pyStrip raw)]) (k + 1) p =
          ⟨pyStrip raw, cache ++ [(p, pyStrip raw)], k + 1, []⟩
        rw [readFile, h2]
    · have h1 : readFile readFs cache k p = ⟨c, cache, k, []⟩ := by
        rw [readFile, hlook]
      rw [h1]
      show readFile readFs cache k p = ⟨c, cache, k, []⟩
      rw [readFile, hlook]

/-- Closed witness for C6: after a successful read, a second request is a
cache hit with the same content and no disk read. -/
theorem read_file_cache_spec_witness :
    readFile (fun _ _ => some "hello") [("p", "hello")] 1 "p" =
      ⟨"hello", [("p", "hello")], 1, []⟩ :=
  (read_file_cache_spec (fun _ _ => some "hello") [("p", "hello")] 1 "p").1
    "hello" (by decide)

/-! ### Selector frame property (claim C8) -/

theorem drawImage_ledger (ro : SelOracles) (src : Option (List String))
    (st : SelState) : ((drawImage ro src st).2).ledger = st.ledger := by
  rw [drawImage]
  by_cases h : hasFiles src
  · simp [h]
  · simp [h]

theorem promptGetRandom_ledger (ro : SelOracles) (files exclude : List String)
    (st : SelState) :
    ((promptGetRandom ro files exclude st).2).ledger = st.ledger := by
  rw [promptGetRandom]
  by_cases h1 : files.isEmpty
  · simp [h1]
  · simp only [h1, Bool.false_eq_true, if_false]
    split <;> first
      | rfl
      | (split <;> rfl)

theorem drawPhase_ledger (ro : SelOracles) (cfg : BatchConfig)
    (usedPrompts : List String) (st : SelState) :
    (drawPhase ro cfg usedPrompts st).state.ledger = st.ledger := by
  rw [drawPhase]
  have h1 := drawImage_ledger ro cfg.faceFiles st
  have h2 := drawImage_ledger ro cfg.outfitFiles (drawImage ro cfg.faceFiles st).2
  have h3 := drawImage_ledger ro cfg.backgroundFiles
    (drawImage ro cfg.outfitFiles (drawImage ro cfg.faceFiles st).2).2
  by_cases hps : hasFiles cfg.promptFiles
  · simp only [hps, if_true]
    rcases hr1 : (promptGetRandom ro (cfg.promptFiles.getD [])
        usedPrompts (drawImage ro cfg.backgroundFiles
          (drawImage ro cfg.outfitFiles (drawImage ro cfg.faceFiles st).2).2).2).1
      with _ | pr1
    · rcases hr2 : (promptGetRandom ro (cfg.promptFiles.getD []) []
          (promptGetRandom ro (cfg.promptFiles.getD [])
            usedPrompts (drawImage ro cfg.backgroundFiles
              (drawImage ro cfg.outfitFiles (drawImage ro cfg.faceFiles st).2).2).2).2).1
        with _ | pr2
      · simp only [hr1, hr2]
        rw [promptGetRandom_ledger, promptGetRandom_ledger, h3, h2, h1]
      · simp only [hr1, hr2]
        rw [promptGetRandom_ledger, promptGetRandom_ledger, h3, h2, h1]
    · simp only [hr1]
      rw [promptGetRandom_ledger, h3, h2, h1]
  · simp only [hps, Bool.false_eq_true, if_false]
    rw [h3, h2, h1]

/-- C8: with `allow_duplicate_combinations` set, `_select_combination`
performs no dedup-ledger operation at all (no query, no mark; the
used_combinations state is unchanged), and a tuple equal to a previously
returned one may be returned again (shown on a one-image pool, where two
successive calls return the same tuple). -/
theorem select_combination_allow_dup_frame (ro : SelOracles) (cfg : BatchConfig)
    (jobId : Nat) (used : List String) (st : SelState)
    (hdup : cfg.allowDuplicateCombinations = true) :
    ((selectCombination ro cfg jobId used st).state.ledger = st.ledger ∧
     (selectCombination ro cfg jobId used st).ops = []) ∧
    ((selectCombination roZero cfgDupAllowed 1 [] selState0).combo =
      (selectCombination roZero cfgDupAllowed 1 []
        (selectCombination roZero cfgDupAllowed 1 [] selState0).state).combo) := by
  constructor
  · have : selectCombination ro cfg jobId used st =
        ⟨⟨(drawPhase ro cfg used st).face, (drawPhase ro cfg used st).outfit,
          (drawPhase ro cfg used st).background,
          (drawPhase ro cfg used st).promptFile⟩,
         (drawPhase ro cfg used st).promptContent,
         (drawPhase ro cfg used st).state, []⟩ := by
      show selectCombinationGo ro cfg jobId used (99 + 1) st = _
      rw [selectCombinationGo]
      simp [hdup]
    rw [this]
    exact ⟨drawPhase_ledger ro cfg used st, rfl⟩
  · decide

/-- Closed witness for C8 at a concrete duplicate-allowing call. -/
theorem select_combination_allow_dup_frame_witness :
    (selectCombination roZero cfgDupAllowed 1 [] selState0).ops = [] :=
  ((select_combination_allow_dup_frame roZero cfgDupAllowed 1 [] selState0
    rfl).1).2

/-! ### Runner counters (claim C2) -/

theorem runLoop_counts (cfg : BatchConfig) (stopAt stopInPause moveOk : Nat → Bool)
    (api : Nat → GenerationResult) :
    ∀ (tasks : List TaskRow) (i : Nat) (table : List TaskRow) (job : JobRow),
      (runLoop cfg stopAt stopInPause moveOk api tasks i table job).job.completedCount =
        job.completedCount +
          (runLoop cfg stopAt stopInPause moveOk api tasks i table job).resultsCompleted ∧
      (runLoop cfg stopAt stopInPause moveOk api tasks i table job).job.failedCount =
        job.failedCount +
          (runLoop cfg stopAt stopInPause moveOk api tasks i table job).resultsFailed ∧
      (runLoop cfg stopAt stopInPause moveOk api tasks i table job).resultsCompleted +
          (runLoop cfg stopAt stopInPause moveOk api tasks i table job).resultsFailed =
        (runLoop cfg stopAt stopInPause moveOk api tasks i table job).procTrace.length := by
  intro tasks
  induction tasks with
  | nil =>
    intro i table job
    simp [runLoop]
  | cons t rest ih =>
    intro i table job
    rw [runLoop]
    by_cases hs : stopSig stopAt stopInPause i
    · simp [hs]
    · simp only [hs, Bool.false_eq_true, if_false]
      by_cases hr : ((api i).success && ((api i).status == TStatus.completed)) = true
      · simp only [hr, if_true, incrementBatchJobCount, List.length_cons]
        have h := ih (i + 1)
          (updateTaskStatus (updateTaskStatus table t.id "processing" none none none
            none none i) t.id "completed" (api i).taskId (pickImageUrl (api i))
            none none (api i).rawResponse i)
          (incrementBatchJobCount job true)
        simp only [incrementBatchJobCount, if_true] at h
        omega
      · simp only [hr, Bool.false_eq_true, if_false, incrementBatchJobCount, List.length_cons]
        have h := ih (i + 1)
          (updateTaskStatus (updateTaskStatus table t.id "processing" none none none
            none none i) t.id "failed" (api i).taskId none none
            (some (pyOr (api i).error "Unknown error")) (api i).rawResponse i)
          (incrementBatchJobCount job false)
        simp only [incrementBatchJobCount, Bool.false_eq_true, if_false] at h
        omega

/-- C2: in every (exception-free) run of `run_batch`, the increments applied
to the job's completed_count plus those applied to failed_count equal exactly
the number of tasks dispatched in the run (the tasks transitioned to
"processing"); the in-memory results counters agree, so each dispatched task
is counted in exactly one of the two counters and tasks skipped by a stop are
counted in neither. -/
theorem run_batch_counters (cfg : BatchConfig) (stopAt stopInPause moveOk : Nat → Bool)
    (api : Nat → GenerationResult) (table : List TaskRow) (job : JobRow) (jobId : Nat) :
    (runBatch cfg stopAt stopInPause moveOk api table job jobId).job.completedCount =
      job.completedCount +
        (runBatch cfg stopAt stopInPause moveOk api table job jobId).resultsCompleted ∧
    (runBatch cfg stopAt stopInPause moveOk api table job jobId).job.failedCount =
      job.failedCount +
        (runBatch cfg stopAt stopInPause moveOk api table job jobId).resultsFailed ∧
    (runBatch cfg stopAt stopInPause moveOk api table job jobId).resultsCompleted +
        (runBatch cfg stopAt stopInPause moveOk api table job jobId).resultsFailed =
      (runBatch cfg stopAt stopInPause moveOk api table job jobId).procTrace.length := by
  have h := runLoop_counts cfg stopAt stopInPause moveOk api
    (getPendingTasks table jobId) 0 table (updateBatchJobStatus job "running")
  simp only [updateBatchJobStatus] at h
  simp only [runBatch, updateBatchJobStatus]
  exact h

/-! ### Error-image move gating (claim C4) -/

theorem runLoop_moveOk_frame (cfg : BatchConfig) (stopAt stopInPause : Nat → Bool)
    (api : Nat → GenerationResult) (moveOk1 moveOk2 : Nat → Bool) :
    ∀ (tasks : List TaskRow) (i : Nat) (table : List TaskRow) (job : JobRow),
      (runLoop cfg stopAt stopInPause moveOk1 api tasks i table job).table =
        (runLoop cfg stopAt stopInPause moveOk2 api tasks i table job).table ∧
      (runLoop cfg stopAt stopInPause moveOk1 api tasks i table job).job =
        (runLoop cfg stopAt stopInPause moveOk2 api tasks i table job).job ∧
      (runLoop cfg stopAt stopInPause moveOk1 api tasks i table job).resultsCompleted =
        (runLoop cfg stopAt stopInPause moveOk2 api tasks i table job).resultsCompleted ∧
      (runLoop cfg stopAt stopInPause moveOk1 api tasks i table job).resultsFailed =
        (runLoop cfg stopAt stopInPause moveOk2 api tasks i table job).resultsFailed ∧
      (runLoop cfg stopAt stopInPause moveOk1 api tasks i table job).stopped =
        (runLoop cfg stopAt stopInPause moveOk2 api tasks i table job).stopped ∧
      (runLoop cfg stopAt stopInPause moveOk1 api tasks i table job).procTrace =
        (runLoop cfg stopAt stopInPause moveOk2 api tasks i table job).procTrace ∧
      (runLoop cfg stopAt stopInPause moveOk1 api tasks i table job).moveTrace =
        (runLoop cfg stopAt stopInPause moveOk2 api tasks i table job).moveTrace := by
  intro tasks
  induction tasks with
  | nil =>
    intro i table job
    simp [runLoop]
  | cons t rest ih =>
    intro i table job
    rw [runLoop, runLoop]
    by_cases hs : stopSig stopAt stopInPause i
    · simp [hs]
    · simp only [hs, Bool.false_eq_true, if_false]
      by_cases hr : ((api i).success && ((api i).status == TStatus.completed)) = true
      · simp only [hr, if_true]
        have h := ih (i + 1)
          (updateTaskStatus (updateTaskStatus table t.id "processing" none none none
            none none i) t.id "completed" (api i).taskId (pickImageUrl (api i))
            none none (api i).rawResponse i)
          (incrementBatchJobCount job true)
        simp only [h.1, h.2.1, h.2.2.1, h.2.2.2.1, h.2.2.2.2.1, h.2.2.2.2.2.1,
          h.2.2.2.2.2.2, and_self]
      · simp only [hr, Bool.false_eq_true, if_false]
        have h := ih (i + 1)
          (updateTaskStatus (updateTaskStatus table t.id "processing" none none none
            none none i) t.id "failed" (api i).taskId none none
            (some (pyOr (api i).error "Unknown error")) (api i).rawResponse i)
          (incrementBatchJobCount job false)
        by_cases hP : cfg.errorFolder ≠ "" ∧ t.outfitImagePath ≠ ""
        · by_cases hcl : isContentPolicyError (pyOr (api i).error "Unknown error") = true
          · simp [hP, hcl, h.1, h.2.1, h.2.2.1, h.2.2.2.1, h.2.2.2.2.1,
              h.2.2.2.2.2.1, h.2.2.2.2.2.2]
          · simp [hP, hcl, h.1, h.2.1, h.2.2.1, h.2.2.2.1, h.2.2.2.2.1,
              h.2.2.2.2.2.1, h.2.2.2.2.2.2]
        · simp [hP, h.1, h.2.1, h.2.2.1, h.2.2.2.1, h.2.2.2.2.1,
            h.2.2.2.2.2.1, h.2.2.2.2.2.2]

theorem runLoop_moveTrace_lb (cfg : BatchConfig) (stopAt stopInPause moveOk : Nat → Bool)
    (api : Nat → GenerationResult) :
    ∀ (tasks : List TaskRow) (i : Nat) (table : List TaskRow) (job : JobRow)
      (q : Nat × String),
      q ∈ (runLoop cfg stopAt stopInPause moveOk api tasks i table job).moveTrace →
      i ≤ q.1 := by
  intro tasks
  induction tasks with
  | nil =>
    intro i table job q hq
    simp [runLoop] at hq
  | cons t rest ih =>
    intro i table job q hq
    rw [runLoop] at hq
    by_cases hs : stopSig stopAt stopInPause i
    · simp [hs] at hq
    · simp only [hs, Bool.false_eq_true, if_false] at hq
      by_cases hr : ((api i).success && ((api i).status == TStatus.completed)) = true
      · simp only [hr, if_true] at hq
        have := ih (i + 1) _ _ q hq
        omega
      · simp only [hr, Bool.false_eq_true, if_false] at hq
        rw [List.mem_append] at hq
        rcases hq with hq | hq
        · by_cases hP : cfg.errorFolder ≠ "" ∧ t.outfitImagePath ≠ ""
          · by_cases hcl : isContentPolicyError (pyOr (api i).error "Unknown error") = true
            · simp [hP, hcl] at hq
              have hfst := congrArg Prod.fst hq
              simp at hfst
              omega
            · simp [hP, hcl] at hq
          · simp [hP] at hq
        · have := ih (i + 1) _ _ q hq
          omega

theorem runLoop_moveTrace_iff (cfg : BatchConfig) (stopAt stopInPause moveOk : Nat → Bool)
    (api : Nat → GenerationResult) :
    ∀ (tasks : List TaskRow) (i : Nat) (table : List TaskRow) (job : JobRow) (jj : Nat),
      jj < (runLoop cfg stopAt stopInPause moveOk api tasks i table job).procTrace.length →
      (((i + jj, (tasks.getD jj default).outfitImagePath) ∈
          (runLoop cfg stopAt stopInPause moveOk api tasks i table job).moveTrace) ↔
        (((api (i + jj)).success && ((api (i + jj)).status == TStatus.completed)) = false ∧
         cfg.errorFolder ≠ "" ∧
         (tasks.getD jj default).outfitImagePath ≠ "" ∧
         isContentPolicyError (pyOr (api (i + jj)).error "Unknown error") = true)) := by
  intro tasks
  induction tasks with
  | nil =>
    intro i table job jj hjj
    simp [runLoop] at hjj
  | cons t rest ih =>
    intro i table job jj hjj
    rw [runLoop] at hjj ⊢
    by_cases hs : stopSig stopAt stopInPause i
    · simp [hs] at hjj
    · simp only [hs, Bool.false_eq_true, if_false] at hjj ⊢
      by_cases hr : ((api i).success && ((api i).status == TStatus.completed)) = true
      · simp only [hr, if_true] at hjj ⊢
        cases jj with
        | zero =>
          rw [Nat.add_zero]
          constructor
          · intro hmem
            have := runLoop_moveTrace_lb cfg stopAt stopInPause moveOk api rest (i + 1)
              _ _ _ hmem
            omega
          · rintro ⟨hfail, -⟩
            simp [hr] at hfail
        | succ jj2 =>
          have harith : i + (jj2 + 1) = (i + 1) + jj2 := by omega
          rw [harith]
          have hlt : jj2 < (runLoop cfg stopAt stopInPause moveOk api rest (i + 1)
              (updateTaskStatus (updateTaskStatus table t.id "processing" none none
                none none none i) t.id "completed" (api i).taskId
                (pickImageUrl (api i)) none none (api i).rawResponse i)
              (incrementBatchJobCount job true)).procTrace.length := by
            simp only [List.length_cons] at hjj
            omega
          have := ih (i + 1) _ _ jj2 hlt
          simpa using this
      · simp only [hr, Bool.false_eq_true, if_false] at hjj ⊢
        cases jj with
        | zero =>
          rw [Nat.add_zero]
          rw [List.mem_append]
          have hnotrest : ((i, ((t :: rest).getD 0 default).outfitImagePath) ∈
              (runLoop cfg stopAt stopInPause moveOk api rest (i + 1)
                (updateTaskStatus (updateTaskStatus table t.id "processing" none none
                  none none none i) t.id "failed" (api i).taskId none none
                  (some (pyOr (api i).error "Unknown error")) (api i).rawResponse i)
                (incrementBatchJobCount job false)).moveTrace) → False := by
            intro hmem
            have := runLoop_moveTrace_lb cfg stopAt stopInPause moveOk api rest (i + 1)
              _ _ _ hmem
            omega
          constructor
          · intro hmem
            rcases hmem with hmem | hmem
            · by_cases hP : cfg.errorFolder ≠ "" ∧ t.outfitImagePath ≠ ""
              · by_cases hcl : isContentPolicyError
                    (pyOr (api i).error "Unknown error") = true
                · exact ⟨by simp [hr], hP.1, by simpa using hP.2, by simpa using hcl⟩
                · simp [hP, hcl] at hmem
              · simp [hP] at hmem
            · exact absurd hmem hnotrest
          · rintro ⟨-, hfolder, houtfit, hcl⟩
            left
            have hcl2 : isContentPolicyError (pyOr (api i).error "Unknown error") = true := by
              simpa using hcl
            have hout2 : t.outfitImagePath ≠ "" := by simpa using houtfit
            have hP : cfg.errorFolder ≠ "" ∧ t.outfitImagePath ≠ "" := ⟨hfolder, hout2⟩
            simp [hP, hcl2]
        | succ jj2 =>
          have harith : i + (jj2 + 1) = (i + 1) + jj2 := by omega
          rw [harith]
          have hlt : jj2 < (runLoop cfg stopAt stopInPause moveOk api rest (i + 1)
              (updateTaskStatus (updateTaskStatus table t.id "processing" none none
                none none none i) t.id "failed" (api i).taskId none none
                (some (pyOr (api i).error "Unknown error")) (api i).rawResponse i)
              (incrementBatchJobCount job false)).procTrace.length := by
            simp only [List.length_cons] at hjj
            omega
          have hih := ih (i + 1) _ _ jj2 hlt
          rw [List.mem_append]
          have hnotmt : (((i + 1) + jj2, ((t :: rest).getD (jj2 + 1) default).outfitImagePath) ∈
              (match (if cfg.errorFolder ≠ "" ∧ t.outfitImagePath ≠ "" then
                  if isContentPolicyError (pyOr (api i).error "Unknown error") then
                    some (i, t.outfitImagePath, moveOk i)
                  else none
                else none) with
                | some (j, p, _) => [(j, p)]
                | none => [])) → False := by
            intro hmem
            by_cases hP : cfg.errorFolder ≠ "" ∧ t.outfitImagePath ≠ ""
            · by_cases hcl : isContentPolicyError (pyOr (api i).error "Unknown error") = true
              · simp [hP, hcl] at hmem
                omega
              · simp [hP, hcl] at hmem
            · simp [hP] at hmem
          constructor
          · intro hmem
            rcases hmem with hmem | hmem
            · exact absurd hmem hnotmt
            · have := hih.mp (by simpa using hmem)
              simpa using this
          · intro hcond
            right
            have := hih.mpr (by simpa using hcond)
            simpa using this

/-- C4: during `run_batch`, a move of a task's outfit image into the error
folder is attempted exactly when the task's remote call failed AND the
failure classifier flags the error message as content-policy AND an error
folder is configured AND the task has a nonempty outfit path (so
non-content-policy failures never trigger a move); and the outcome of the
move attempts is non-fatal: runs differing only in move success produce the
same tables, counters, traces and statuses, differing at most in the
moved-images tally. -/
theorem run_batch_move_gating (cfg : BatchConfig) (stopAt stopInPause moveOk : Nat → Bool)
    (api : Nat → GenerationResult) (table : List TaskRow) (job : JobRow) (jobId : Nat) :
    (∀ jj, jj < (runBatch cfg stopAt stopInPause moveOk api table job jobId).procTrace.length →
      (((jj, ((getPendingTasks table jobId).getD jj default).outfitImagePath) ∈
          (runBatch cfg stopAt stopInPause moveOk api table job jobId).moveTrace) ↔
        (((api jj).success && ((api jj).status == TStatus.completed)) = false ∧
         cfg.errorFolder ≠ "" ∧
         ((getPendingTasks table jobId).getD jj default).outfitImagePath ≠ "" ∧
         isContentPolicyError (pyOr (api jj).error "Unknown error") = true))) ∧
    (∀ moveOk2 : Nat → Bool,
      (runBatch cfg stopAt stopInPause moveOk api table job jobId).table =
        (runBatch cfg stopAt stopInPause moveOk2 api table job jobId).table ∧
      (runBatch cfg stopAt stopInPause moveOk api table job jobId).job =
        (runBatch cfg stopAt stopInPause moveOk2 api table job jobId).job ∧
      (runBatch cfg stopAt stopInPause moveOk api table job jobId).resultsCompleted =
        (runBatch cfg stopAt stopInPause moveOk2 api table job jobId).resultsCompleted ∧
      (runBatch cfg stopAt stopInPause moveOk api table job jobId).resultsFailed =
        (runBatch cfg stopAt stopInPause moveOk2 api table job jobId).resultsFailed ∧
      (runBatch cfg stopAt stopInPause moveOk api table job jobId).stopped =
        (runBatch cfg stopAt stopInPause moveOk2 api table job jobId).stopped ∧
      (runBatch cfg stopAt stopInPause moveOk api table job jobId).procTrace =
        (runBatch cfg stopAt stopInPause moveOk2 api table job jobId).procTrace ∧
      (runBatch cfg stopAt stopInPause moveOk api table job jobId).moveTrace =
        (runBatch cfg stopAt stopInPause moveOk2 api table job jobId).moveTrace) := by
  constructor
  · intro jj hjj
    have hlen : jj < (runLoop cfg stopAt stopInPause moveOk api
        (getPendingTasks table jobId) 0 table
        (updateBatchJobStatus job "running")).procTrace.length := by
      simpa [runBatch] using hjj
    have h := runLoop_moveTrace_iff cfg stopAt stopInPause moveOk api
      (getPendingTasks table jobId) 0 table (updateBatchJobStatus job "running") jj hlen
    simpa [runBatch] using h
  · intro moveOk2
    have h := runLoop_moveOk_frame cfg stopAt stopInPause api moveOk moveOk2
      (getPendingTasks table jobId) 0 table (updateBatchJobStatus job "running")
    refine ⟨?_, ?_, ?_, ?_, ?_, ?_, ?_⟩ <;>
      simp [runBatch, h.1, h.2.1, h.2.2.1, h.2.2.2.1, h.2.2.2.2.1,
        h.2.2.2.2.2.1, h.2.2.2.2.2.2]

/-- Closed witness for C4: one pending task failing with an NSFW message,
error folder configured, outfit path set — the move attempt is recorded even
though the move itself fails (moveOk is constantly false). -/
theorem run_batch_move_gating_witness :
    (0, ((getPendingTasks [taskWithOutfit] 7).getD 0 default).outfitImagePath) ∈
      (runBatch cfgErrFolder sigNever sigNever sigNever apiNsfwFail
        [taskWithOutfit] jobRow0 7).moveTrace :=
  ((run_batch_move_gating cfgErrFolder sigNever sigNever sigNever apiNsfwFail
      [taskWithOutfit] jobRow0 7).1 0 (by decide)).mpr (by decide)

/-! ### Stop semantics (claim C3) -/

theorem updateTaskStatus_findRow (table : List TaskRow) (uid : Nat) (status : String)
    (a b c d : Option String) (e : Option (List (String × String))) (now tid : Nat) :
    findRow (updateTaskStatus table uid status a b c d e now) tid =
      Option.map (fun r =>
        if r.id == uid then
          { r with
            status := status
            updatedAt := now
            apiRequestId := if pyTruthyStr a then a else r.apiRequestId
            resultUrl := if pyTruthyStr b then b else r.resultUrl
            localPath := if pyTruthyStr c then c else r.localPath
            errorMessage := if pyTruthyStr d then d else r.errorMessage
            apiResponse := if pyTruthyDict e then e else r.apiResponse }
        else r) (findRow table tid) := by
  have hpred : ((fun r : TaskRow => r.id == tid) ∘ (fun r : TaskRow =>
      if r.id == uid then
        { r with
          status := status
          updatedAt := now
          apiRequestId := if pyTruthyStr a then a else r.apiRequestId
          resultUrl := if pyTruthyStr b then b else r.resultUrl
          localPath := if pyTruthyStr c then c else r.localPath
          errorMessage := if pyTruthyStr d then d else r.errorMessage
          apiResponse := if pyTruthyDict e then e else r.apiResponse }
      else r)) = (fun r : TaskRow => r.id == tid) := by
    funext r
    by_cases h : r.id == uid
    · simp [Function.comp, h]
    · simp [Function.comp, h]
  rw [findRow, updateTaskStatus, List.find?_map, hpred, findRow]

theorem findRow_updateTaskStatus_ne (table : List TaskRow) (uid : Nat) (status : String)
    (a b c d : Option String) (e : Option (List (String × String))) (now tid : Nat)
    (hne : tid ≠ uid) :
    findRow (updateTaskStatus table uid status a b c d e now) tid = findRow table tid := by
  rw [updateTaskStatus_findRow]
  rcases hfind : findRow table tid with _ | r
  · rfl
  · have hid : r.id = tid := by
      have := List.find?_some hfind
      simpa using this
    rw [Option.map_some', if_neg]
    simp [hid, hne]

theorem findRow_updateTaskStatus_self (table : List TaskRow) (uid : Nat) (status : String)
    (a b c d : Option String) (e : Option (List (String × String))) (now : Nat)
    (r : TaskRow) (hfind : findRow table uid = some r) :
    ∃ r2, findRow (updateTaskStatus table uid status a b c d e now) uid = some r2 ∧
      r2.status = status ∧ r2.id = r.id := by
  rw [updateTaskStatus_findRow, hfind]
  have hid : r.id = uid := by
    have := List.find?_some hfind
    simpa using this
  have : (r.id == uid) = true := by simp [hid]
  simp only [Option.map_some', this, if_true]
  exact ⟨_, rfl, rfl, rfl⟩

theorem findRow_updateTaskStatus_isSome (table : List TaskRow) (uid : Nat)
    (status : String) (a b c d : Option String)
    (e : Option (List (String × String))) (now tid : Nat) :
    (findRow (updateTaskStatus table uid status a b c d e now) tid).isSome =
      (findRow table tid).isSome := by
  rw [updateTaskStatus_findRow]
  rcases findRow table tid with _ | r <;> rfl

theorem runLoop_procTrace_subset (cfg : BatchConfig)
    (stopAt stopInPause moveOk : Nat → Bool) (api : Nat → GenerationResult) :
    ∀ (tasks : List TaskRow) (i : Nat) (table : List TaskRow) (job : JobRow) (tid : Nat),
      tid ∈ (runLoop cfg stopAt stopInPause moveOk api tasks i table job).procTrace →
      tid ∈ tasks.map TaskRow.id := by
  intro tasks
  induction tasks with
  | nil =>
    intro i table job tid h
    simp [runLoop] at h
  | cons t rest ih =>
    intro i table job tid h
    rw [runLoop] at h
    by_cases hs : stopSig stopAt stopInPause i
    · simp [hs] at h
    · simp only [hs, Bool.false_eq_true, if_false] at h
      by_cases hr : ((api i).success && ((api i).status == TStatus.completed)) = true
      · simp only [hr, if_true] at h
        rcases List.mem_cons.mp h with h | h
        · simp [h]
        · have := ih (i + 1) _ _ tid h
          simp [this]
      · simp only [hr, Bool.false_eq_true, if_false] at h
        rcases List.mem_cons.mp h with h | h
        · simp [h]
        · have := ih (i + 1) _ _ tid h
          simp [this]

theorem runLoop_findRow_untouched (cfg : BatchConfig)
    (stopAt stopInPause moveOk : Nat → Bool) (api : Nat → GenerationResult) :
    ∀ (tasks : List TaskRow) (i : Nat) (table : List TaskRow) (job : JobRow) (tid : Nat),
      tid ∉ (runLoop cfg stopAt stopInPause moveOk api tasks i table job).procTrace →
      findRow (runLoop cfg stopAt stopInPause moveOk api tasks i table job).table tid =
        findRow table tid := by
  intro tasks
  induction tasks with
  | nil =>
    intro i table job tid _
    simp [runLoop]
  | cons t rest ih =>
    intro i table job tid h
    rw [runLoop]
    by_cases hs : stopSig stopAt stopInPause i
    · simp [hs]
    · rw [runLoop] at h
      simp only [hs, Bool.false_eq_true, if_false] at h ⊢
      by_cases hr : ((api i).success && ((api i).status == TStatus.completed)) = true
      · simp only [hr, if_true] at h ⊢
        have hne : tid ≠ t.id := by
          intro heq
          exact h (by simp [heq])
        have hrest : tid ∉ (runLoop cfg stopAt stopInPause moveOk api rest (i + 1)
            (updateTaskStatus (updateTaskStatus table t.id "processing" none none none
              none none i) t.id "completed" (api i).taskId (pickImageUrl (api i))
              none none (api i).rawResponse i)
            (incrementBatchJobCount job true)).procTrace := by
          intro hmem
          exact h (List.mem_cons_of_mem _ hmem)
        rw [ih (i + 1) _ _ tid hrest, findRow_updateTaskStatus_ne _ _ _ _ _ _ _ _ _ _ hne,
          findRow_updateTaskStatus_ne _ _ _ _ _ _ _ _ _ _ hne]
      · simp only [hr, Bool.false_eq_true, if_false] at h ⊢
        have hne : tid ≠ t.id := by
          intro heq
          exact h (by simp [heq])
        have hrest : tid ∉ (runLoop cfg stopAt stopInPause moveOk api rest (i + 1)
            (updateTaskStatus (updateTaskStatus table t.id "processing" none none none
              none none i) t.id "failed" (api i).taskId none none
              (some (pyOr (api i).error "Unknown error")) (api i).rawResponse i)
            (incrementBatchJobCount job false)).procTrace := by
          intro hmem
          exact h (List.mem_cons_of_mem _ hmem)
        rw [ih (i + 1) _ _ tid hrest, findRow_updateTaskStatus_ne _ _ _ _ _ _ _ _ _ _ hne,
          findRow_updateTaskStatus_ne _ _ _ _ _ _ _ _ _ _ hne]

theorem runLoop_stop_trace (cfg : BatchConfig)
    (stopAt stopInPause moveOk : Nat → Bool) (api : Nat → GenerationResult) :
    ∀ (tasks : List TaskRow) (k i : Nat) (table : List TaskRow) (job : JobRow),
      k < tasks.length →
      stopSig stopAt stopInPause (i + k) = true →
      (∀ j, j < k → stopSig stopAt stopInPause (i + j) = false) →
      (runLoop cfg stopAt stopInPause moveOk api tasks i table job).procTrace =
        (tasks.take k).map TaskRow.id ∧
      (runLoop cfg stopAt stopInPause moveOk api tasks i table job).stopped = true := by
  intro tasks
  induction tasks with
  | nil =>
    intro k i table job hk _ _
    simp at hk
  | cons t rest ih =>
    intro k i table job hk hsig hbefore
    rw [runLoop]
    cases k with
    | zero =>
      have hs : stopSig stopAt stopInPause i = true := by simpa using hsig
      simp [hs]
    | succ k2 =>
      have hs : stopSig stopAt stopInPause i = false := by
        have := hbefore 0 (Nat.succ_pos k2)
        simpa using this
      simp only [hs, Bool.false_eq_true, if_false]
      have hk2 : k2 < rest.length := by
        simpa using Nat.lt_of_succ_lt_succ hk
      have hsig2 : stopSig stopAt stopInPause ((i + 1) + k2) = true := by
        have : (i + 1) + k2 = i + (k2 + 1) := by omega
        rw [this]
        exact hsig
      have hbefore2 : ∀ j, j < k2 → stopSig stopAt stopInPause ((i + 1) + j) = false := by
        intro j hj
        have : (i + 1) + j = i + (j + 1) := by omega
        rw [this]
        exact hbefore (j + 1) (by omega)
      by_cases hr : ((api i).success && ((api i).status == TStatus.completed)) = true
      · simp only [hr, if_true]
        have h := ih k2 (i + 1)
          (updateTaskStatus (updateTaskStatus table t.id "processing" none none none
            none none i) t.id "completed" (api i).taskId (pickImageUrl (api i))
            none none (api i).rawResponse i)
          (incrementBatchJobCount job true) hk2 hsig2 hbefore2
        simp [h.1, h.2]
      · simp only [hr, Bool.false_eq_true, if_false]
        have h := ih k2 (i + 1)
          (updateTaskStatus (updateTaskStatus table t.id "processing" none none none
            none none i) t.id "failed" (api i).taskId none none
            (some (pyOr (api i).error "Unknown error")) (api i).rawResponse i)
          (incrementBatchJobCount job false) hk2 hsig2 hbefore2
        simp [h.1, h.2]

theorem runLoop_dispatched_terminal (cfg : BatchConfig)
    (stopAt stopInPause moveOk : Nat → Bool) (api : Nat → GenerationResult) :
    ∀ (tasks : List TaskRow) (i : Nat) (table : List TaskRow) (job : JobRow),
      (tasks.map TaskRow.id).Nodup →
      (∀ t ∈ tasks, (findRow table t.id).isSome = true) →
      ∀ tid ∈ (runLoop cfg stopAt stopInPause moveOk api tasks i table job).procTrace,
        ∃ r, findRow (runLoop cfg stopAt stopInPause moveOk api tasks i table job).table
            tid = some r ∧
          (r.status = "completed" ∨ r.status = "failed") := by
  intro tasks
  induction tasks with
  | nil =>
    intro i table job _ _ tid hmem
    simp [runLoop] at hmem
  | cons t rest ih =>
    intro i table job hnd hpres tid hmem
    rw [runLoop] at hmem ⊢
    by_cases hs : stopSig stopAt stopInPause i
    · simp [hs] at hmem
    · simp only [hs, Bool.false_eq_true, if_false] at hmem ⊢
      by_cases hr : ((api i).success && ((api i).status == TStatus.completed)) = true
      · simp only [hr, if_true] at hmem ⊢
        obtain ⟨r0, hr0⟩ := Option.isSome_iff_exists.mp
          (hpres t (List.mem_cons_self t rest))
        obtain ⟨r1, hr1, hr1status, hr1id⟩ := findRow_updateTaskStatus_self table t.id
          "processing" none none none none none i r0 hr0
        obtain ⟨r2, hr2, hr2status, -⟩ := findRow_updateTaskStatus_self _ t.id
          "completed" (api i).taskId (pickImageUrl (api i)) none none
          (api i).rawResponse i r1 hr1
        rcases List.mem_cons.mp hmem with heq | hmem2
        · have hnotin : tid ∉ (runLoop cfg stopAt stopInPause moveOk api rest (i + 1)
              (updateTaskStatus (updateTaskStatus table t.id "processing" none none none
                none none i) t.id "completed" (api i).taskId (pickImageUrl (api i))
                none none (api i).rawResponse i)
              (incrementBatchJobCount job true)).procTrace := by
            intro hmem3
            have hsub := runLoop_procTrace_subset cfg stopAt stopInPause moveOk api rest
              (i + 1) _ _ tid hmem3
            rw [heq] at hsub
            exact (List.nodup_cons.mp hnd).1 hsub
          rw [runLoop_findRow_untouched cfg stopAt stopInPause moveOk api rest (i + 1)
            _ _ tid hnotin, heq]
          exact ⟨r2, hr2, Or.inl hr2status⟩
        · have hpres2 : ∀ t2 ∈ rest, (findRow (updateTaskStatus (updateTaskStatus table
              t.id "processing" none none none none none i) t.id "completed"
              (api i).taskId (pickImageUrl (api i)) none none (api i).rawResponse i)
              t2.id).isSome = true := by
            intro t2 ht2
            rw [findRow_updateTaskStatus_isSome, findRow_updateTaskStatus_isSome]
            exact hpres t2 (List.mem_cons_of_mem t ht2)
          exact ih (i + 1) _ _ (List.nodup_cons.mp hnd).2 hpres2 tid hmem2
      · simp only [hr, Bool.false_eq_true, if_false] at hmem ⊢
        obtain ⟨r0, hr0⟩ := Option.isSome_iff_exists.mp
          (hpres t (List.mem_cons_self t rest))
        obtain ⟨r1, hr1, hr1status, hr1id⟩ := findRow_updateTaskStatus_self table t.id
          "processing" none none none none none i r0 hr0
        obtain ⟨r2, hr2, hr2status, -⟩ := findRow_updateTaskStatus_self _ t.id
          "failed" (api i).taskId none none
          (some (pyOr (api i).error "Unknown error")) (api i).rawResponse i r1 hr1
        rcases List.mem_cons.mp hmem with heq | hmem2
        · have hnotin : tid ∉ (runLoop cfg stopAt stopInPause moveOk api rest (i + 1)
              (updateTaskStatus (updateTaskStatus table t.id "processing" none none none
                none none i) t.id "failed" (api i).taskId none none
                (some (pyOr (api i).error "Unknown error")) (api i).rawResponse i)
              (incrementBatchJobCount job false)).procTrace := by
            intro hmem3
            have hsub := runLoop_procTrace_subset cfg stopAt stopInPause moveOk api rest
              (i + 1) _ _ tid hmem3
            rw [heq] at hsub
            exact (List.nodup_cons.mp hnd).1 hsub
          rw [runLoop_findRow_untouched cfg stopAt stopInPause moveOk api rest (i + 1)
            _ _ tid hnotin, heq]
          exact ⟨r2, hr2, Or.inr hr2status⟩
        · have hpres2 : ∀ t2 ∈ rest, (findRow (updateTaskStatus (updateTaskStatus table
              t.id "processing" none none none none none i) t.id "failed"
              (api i).taskId none none (some (pyOr (api i).error "Unknown error"))
              (api i).rawResponse i) t2.id).isSome = true := by
            intro t2 ht2
            rw [findRow_updateTaskStatus_isSome, findRow_updateTaskStatus_isSome]
            exact hpres t2 (List.mem_cons_of_mem t ht2)
          exact ih (i + 1) _ _ (List.nodup_cons.mp hnd).2 hpres2 tid hmem2

theorem nodup_getD_not_mem_take (l : List TaskRow)
    (h : (l.map TaskRow.id).Nodup) (k : Nat) (hk : k < l.length) :
    (l.getD k default).id ∉ (l.take k).map TaskRow.id := by
  intro hmem
  rw [List.map_take] at hmem
  obtain ⟨j, hj⟩ := List.mem_iff_getElem?.mp hmem
  have hjk : j < k := by
    have hjlen : j < ((l.map TaskRow.id).take k).length := by
      by_contra hge
      rw [List.getElem?_eq_none (Nat.le_of_not_lt hge)] at hj
      cases hj
    simp only [List.length_take, List.length_map] at hjlen
    omega
  rw [List.getElem?_take_of_lt hjk] at hj
  have hkL : k < (l.map TaskRow.id).length := by simpa using hk
  have hlk : l[k]? = some (l.getD k default) := by
    rw [List.getElem?_eq_getElem hk]
    simp [List.getD_eq_getElem?_getD, List.getElem?_eq_getElem hk]
  have hval : (l.map TaskRow.id)[k]? = some ((l.getD k default).id) := by
    rw [List.getElem?_map, hlk]
    rfl
  have hne := List.nodup_iff_getElem?_ne_getElem?.mp h j k hjk hkL
  exact hne (hj.trans hval.symm)

/-- C3: once the stop signal is observed at a check point of `run_batch`
(first at iteration k), no further task is transitioned to "processing": the
processing trace is exactly the ids of the first k pending tasks, the run
result is marked stopped, the job's final persisted status is "stopped", the
pending task at which the stop was observed keeps its stored row unchanged,
and every task dispatched before the signal still reaches a terminal state
(completed or failed) in the final table. -/
theorem run_batch_stop_semantics (cfg : BatchConfig)
    (stopAt stopInPause moveOk : Nat → Bool) (api : Nat → GenerationResult)
    (table : List TaskRow) (job : JobRow) (jobId : Nat) (k : Nat)
    (hk : k < (getPendingTasks table jobId).length)
    (hsig : stopSig stopAt stopInPause k = true)
    (hbefore : ∀ j, j < k → stopSig stopAt stopInPause j = false)
    (hnd : ((getPendingTasks table jobId).map TaskRow.id).Nodup) :
    (runBatch cfg stopAt stopInPause moveOk api table job jobId).procTrace =
      ((getPendingTasks table jobId).take k).map TaskRow.id ∧
    (runBatch cfg stopAt stopInPause moveOk api table job jobId).stopped = true ∧
    (runBatch cfg stopAt stopInPause moveOk api table job jobId).job.status =
      "stopped" ∧
    findRow (runBatch cfg stopAt stopInPause moveOk api table job jobId).table
        ((getPendingTasks table jobId).getD k default).id =
      findRow table ((getPendingTasks table jobId).getD k default).id ∧
    (∀ tid ∈ (runBatch cfg stopAt stopInPause moveOk api table job jobId).procTrace,
      ∃ r, findRow (runBatch cfg stopAt stopInPause moveOk api table job jobId).table
          tid = some r ∧ (r.status = "completed" ∨ r.status = "failed")) := by
  have hsig0 : stopSig stopAt stopInPause (0 + k) = true := by simpa using hsig
  have hbefore0 : ∀ j, j < k → stopSig stopAt stopInPause (0 + j) = false := by
    intro j hj
    simpa using hbefore j hj
  have htrace := runLoop_stop_trace cfg stopAt stopInPause moveOk api
    (getPendingTasks table jobId) k 0 table (updateBatchJobStatus job "running")
    hk hsig0 hbefore0
  have hnotk : ((getPendingTasks table jobId).getD k default).id ∉
      (runLoop cfg stopAt stopInPause moveOk api (getPendingTasks table jobId) 0 table
        (updateBatchJobStatus job "running")).procTrace := by
    rw [htrace.1]
    exact nodup_getD_not_mem_take _ hnd k hk
  have huntouched := runLoop_findRow_untouched cfg stopAt stopInPause moveOk api
    (getPendingTasks table jobId) 0 table (updateBatchJobStatus job "running")
    ((getPendingTasks table jobId).getD k default).id hnotk
  have hpres : ∀ t ∈ getPendingTasks table jobId,
      (findRow table t.id).isSome = true := by
    intro t ht
    have htab : t ∈ table := by
      rw [getPendingTasks, List.mem_insertionSort] at ht
      exact (List.mem_filter.mp ht).1
    simp only [findRow, List.find?_isSome]
    exact ⟨t, htab, by simp⟩
  have hterm := runLoop_dispatched_terminal cfg stopAt stopInPause moveOk api
    (getPendingTasks table jobId) 0 table (updateBatchJobStatus job "running") hnd hpres
  refine ⟨?_, ?_, ?_, ?_, ?_⟩
  · simpa [runBatch] using htrace.1
  · simpa [runBatch] using htrace.2
  · have h2 := htrace.2
    simp only [updateBatchJobStatus] at h2
    simp [runBatch, updateBatchJobStatus, h2]
  · simpa [runBatch] using huntouched
  · intro tid hmem
    have hmem2 : tid ∈ (runLoop cfg stopAt stopInPause moveOk api
        (getPendingTasks table jobId) 0 table
        (updateBatchJobStatus job "running")).procTrace := by
      simpa [runBatch] using hmem
    have := hterm tid hmem2
    simpa [runBatch] using this

/-- Closed witness for C3: two pending tasks, stop observed at the second
check point — one task dispatched, job ends "stopped". -/
theorem run_batch_stop_semantics_witness :
    (runBatch cfgErrFolder sigFrom1 sigNever sigNever apiNsfwFail twoTasks
        jobRow0 7).job.status = "stopped" :=
  (run_batch_stop_semantics cfgErrFolder sigFrom1 sigNever sigNever apiNsfwFail twoTasks
      jobRow0 7 1 (by decide) (by decide)
      (by
        intro j hj
        have hj0 : j = 0 := Nat.lt_one_iff.mp hj
        subst hj0
        decide)
      (by decide)).2.2.1

/-! ### No-duplicate combinations in task preparation (claim C1) -/

/-- With duplicates disallowed, one `_select_combination` call either returns
the all-empty exhaustion fallback leaving the ledger unchanged, or returns a
tuple whose hash was fresh in the entry ledger and is recorded by appending
exactly its row. -/
theorem selectCombinationGo_spec (ro : SelOracles) (cfg : BatchConfig) (jobId : Nat)
    (hdup : cfg.allowDuplicateCombinations = false) :
    ∀ (fuel : Nat) (used : List String) (st : SelState),
      ((selectCombinationGo ro cfg jobId used fuel st).combo = emptyCombo ∧
        (selectCombinationGo ro cfg jobId used fuel st).state.ledger = st.ledger) ∨
      (isCombinationUsed st.ledger jobId
          (comboHashOf (selectCombinationGo ro cfg jobId used fuel st).combo) = false ∧
        (selectCombinationGo ro cfg jobId used fuel st).state.ledger = st.ledger ++
          [⟨jobId, comboHashOf (selectCombinationGo ro cfg jobId used fuel st).combo,
            (selectCombinationGo ro cfg jobId used fuel st).combo.face,
            (selectCombinationGo ro cfg jobId used fuel st).combo.outfit,
            (selectCombinationGo ro cfg jobId used fuel st).combo.background⟩]) := by
  intro fuel
  induction fuel with
  | zero =>
    intro used st
    left
    exact ⟨rfl, rfl⟩
  | succ fuel ih =>
    intro used st
    rw [selectCombinationGo]
    simp only [hdup, Bool.false_eq_true, if_false]
    have hdl := drawPhase_ledger ro cfg used st
    by_cases hused : isCombinationUsed (drawPhase ro cfg used st).state.ledger jobId
        (combinationHash (drawPhase ro cfg used st).face
          (drawPhase ro cfg used st).outfit (drawPhase ro cfg used st).background
          (drawPhase ro cfg used st).promptFile) = true
    · simp only [hused, if_true]
      have hih := ih used (drawPhase ro cfg used st).state
      rw [hdl] at hih
      rcases hih with ⟨h1, h2⟩ | ⟨h1, h2⟩
      · left
        exact ⟨h1, h2⟩
      · right
        exact ⟨h1, h2⟩
    · simp only [hused, Bool.false_eq_true, if_false]
      right
      have husedf : isCombinationUsed (drawPhase ro cfg used st).state.ledger jobId
          (combinationHash (drawPhase ro cfg used st).face
            (drawPhase ro cfg used st).outfit (drawPhase ro cfg used st).background
            (drawPhase ro cfg used st).promptFile) = false :=
        Bool.eq_false_iff.mpr hused
      constructor
      · rw [← hdl]
        exact husedf
      · show markCombinationUsed (drawPhase ro cfg used st).state.ledger jobId
          (combinationHash (drawPhase ro cfg used st).face
            (drawPhase ro cfg used st).outfit (drawPhase ro cfg used st).background
            (drawPhase ro cfg used st).promptFile)
          (drawPhase ro cfg used st).face (drawPhase ro cfg used st).outfit
          (drawPhase ro cfg used st).background = _
        rw [markCombinationUsed, if_neg (by simp [husedf]), hdl]
        rfl

/-- Invariant step for `prepare_tasks`: tuples recorded so far stay pairwise
distinct (among non-fallback ones). -/
theorem prepareTasksGo_spec (ro : SelOracles) (cfg : BatchConfig) (jobId : Nat)
    (hdup : cfg.allowDuplicateCombinations = false) :
    ∀ (n : Nat) (ps : PrepState),
      (∀ c ∈ ps.materialized, c ≠ emptyCombo →
        isCombinationUsed ps.sel.ledger jobId (comboHashOf c) = true) →
      List.Pairwise (fun a b => a ≠ emptyCombo → b ≠ emptyCombo → a ≠ b)
        ps.materialized →
      List.Pairwise (fun a b => a ≠ emptyCombo → b ≠ emptyCombo → a ≠ b)
        (prepareTasksGo ro cfg jobId n ps).materialized := by
  intro n
  induction n with
  | zero =>
    intro ps _ hpw
    exact hpw
  | succ n ih =>
    intro ps hinv hpw
    rw [prepareTasksGo]
    have hspec := selectCombinationGo_spec ro cfg jobId hdup maxAttempts
      ps.usedPrompts ps.sel
    rw [show selectCombinationGo ro cfg jobId ps.usedPrompts maxAttempts ps.sel =
      selectCombination ro cfg jobId ps.usedPrompts ps.sel from rfl] at hspec
    rcases hspec with ⟨hc, hl⟩ | ⟨hnot, hl⟩
    · by_cases hpr : buildPrompt
          (selectCombination ro cfg jobId ps.usedPrompts ps.sel).promptContent
          (selectCombination ro cfg jobId ps.usedPrompts ps.sel).combo.face
          (selectCombination ro cfg jobId ps.usedPrompts ps.sel).combo.outfit
          (selectCombination ro cfg jobId ps.usedPrompts ps.sel).combo.background = ""
      · simp only [hpr, if_true]
        apply ih
        · intro c hc2 hcne
          rw [hl]
          exact hinv c hc2 hcne
        · exact hpw
      · simp only [hpr, if_false]
        apply ih
        · intro c hc2 hcne
          simp only [] at hc2
          rcases List.mem_append.mp hc2 with hc3 | hc3
          · rw [hl]
            exact hinv c hc3 hcne
          · rw [List.mem_singleton] at hc3
            subst hc3
            exact absurd hc hcne
        · rw [List.pairwise_append]
          refine ⟨hpw, List.pairwise_singleton _ _, ?_⟩
          intro a _ b hb
          rw [List.mem_singleton] at hb
          subst hb
          intro _ hbne
          exact absurd hc hbne
    · by_cases hpr : buildPrompt
          (selectCombination ro cfg jobId ps.usedPrompts ps.sel).promptContent
          (selectCombination ro cfg jobId ps.usedPrompts ps.sel).combo.face
          (selectCombination ro cfg jobId ps.usedPrompts ps.sel).combo.outfit
          (selectCombination ro cfg jobId ps.usedPrompts ps.sel).combo.background = ""
      · simp only [hpr, if_true]
        apply ih
        · intro c hc2 hcne
          rw [hl, isCombinationUsed_append, hinv c hc2 hcne]
          rfl
        · exact hpw
      · simp only [hpr, if_false]
        apply ih
        · intro c hc2 hcne
          simp only [] at hc2
          rcases List.mem_append.mp hc2 with hc3 | hc3
          · rw [hl, isCombinationUsed_append, hinv c hc3 hcne]
            rfl
          · rw [List.mem_singleton] at hc3
            subst hc3
            rw [hl, isCombinationUsed_append]
            have : isCombinationUsed
                [⟨jobId, comboHashOf (selectCombination ro cfg jobId
                    ps.usedPrompts ps.sel).combo,
                  (selectCombination ro cfg jobId ps.usedPrompts ps.sel).combo.face,
                  (selectCombination ro cfg jobId ps.usedPrompts ps.sel).combo.outfit,
                  (selectCombination ro cfg jobId
                    ps.usedPrompts ps.sel).combo.background⟩] jobId
                (comboHashOf (selectCombination ro cfg jobId
                  ps.usedPrompts ps.sel).combo) = true := by
              simp [isCombinationUsed]
            rw [this]
            simp
        · rw [List.pairwise_append]
          refine ⟨hpw, List.pairwise_singleton _ _, ?_⟩
          intro a ha b hb
          rw [List.mem_singleton] at hb
          subst hb
          intro hane _
          intro heq
          have hhash : isCombinationUsed ps.sel.ledger jobId (comboHashOf a) = true :=
            hinv a ha hane
          rw [heq] at hhash
          rw [hhash] at hnot
          cases hnot

/-- C1 counterexample: with duplicates disallowed, a face pool of size 3 and
three tasks requested (pool size = requested count), an adversarial random
stream that always draws the same image exhausts the 100-attempt bound twice;
both exhausted iterations materialize the identical all-empty fallback tuple,
so two distinct tasks of the job share the same
(face, outfit, background, prompt_file) tuple. -/
theorem prepare_tasks_duplicate_cex :
    cfgFaces3.allowDuplicateCombinations = false ∧
    cfgFaces3.totalCount = 3 ∧
    cfgFaces3.faceFiles = some ["a", "b", "c"] ∧
    (prepareTasks roZero cfgFaces3 1 [] 1 selState0).createdCount = 3 ∧
    ¬ List.Pairwise (fun a b => a ≠ b)
        ((prepareTasks roZero cfgFaces3 1 [] 1 selState0).materialized) := by
  decide

/-- `prepare_tasks` records exactly one selected tuple per created task. -/
theorem prepareTasksGo_count (ro : SelOracles) (cfg : BatchConfig) (jobId : Nat) :
    ∀ (n : Nat) (ps : PrepState),
      (prepareTasksGo ro cfg jobId n ps).materialized.length + ps.createdCount =
        (prepareTasksGo ro cfg jobId n ps).createdCount + ps.materialized.length := by
  intro n
  induction n with
  | zero =>
    intro ps
    rw [prepareTasksGo]
    omega
  | succ n ih =>
    intro ps
    rw [prepareTasksGo]
    by_cases hpr : buildPrompt
        (selectCombination ro cfg jobId ps.usedPrompts ps.sel).promptContent
        (selectCombination ro cfg jobId ps.usedPrompts ps.sel).combo.face
        (selectCombination ro cfg jobId ps.usedPrompts ps.sel).combo.outfit
        (selectCombination ro cfg jobId ps.usedPrompts ps.sel).combo.background = ""
    · simp only [hpr, if_true]
      exact ih _
    · simp only [hpr, if_false]
      have h := ih
        { table := createGenerationTask ps.table ps.nextId jobId
            (selectCombination ro cfg jobId ps.usedPrompts ps.sel).combo.face
            (selectCombination ro cfg jobId ps.usedPrompts ps.sel).combo.outfit
            (selectCombination ro cfg jobId ps.usedPrompts ps.sel).combo.background
            (buildPrompt
              (selectCombination ro cfg jobId ps.usedPrompts ps.sel).promptContent
              (selectCombination ro cfg jobId ps.usedPrompts ps.sel).combo.face
              (selectCombination ro cfg jobId ps.usedPrompts ps.sel).combo.outfit
              (selectCombination ro cfg jobId ps.usedPrompts ps.sel).combo.background)
          nextId := ps.nextId + 1
          createdCount := ps.createdCount + 1
          usedPrompts :=
            if (selectCombination ro cfg jobId
                ps.usedPrompts ps.sel).combo.promptFile ≠ "" then
              ps.usedPrompts ++
                [(selectCombination ro cfg jobId ps.usedPrompts ps.sel).combo.promptFile]
            else ps.usedPrompts
          sel := (selectCombination ro cfg jobId ps.usedPrompts ps.sel).state
          materialized := ps.materialized ++
            [(selectCombination ro cfg jobId ps.usedPrompts ps.sel).combo] }
      simp only [List.length_append, List.length_singleton] at h
      omega

/-- C1 (amended): for every job with duplicate combinations disallowed,
`prepare_tasks` selects exactly one tuple per task it materializes, and any
two distinct tasks whose selected tuples are not the all-empty exhaustion
fallback differ in at least one component of the
(face, outfit, background, prompt_file) tuple; only the all-empty fallback
tuple (returned when the 100-attempt bound is exhausted, or when no source is
configured) can repeat. -/
theorem prepare_tasks_distinct_combos (ro : SelOracles) (cfg : BatchConfig)
    (jobId : Nat) (table : List TaskRow) (nextId : Nat) (sel0 : SelState)
    (hdup : cfg.allowDuplicateCombinations = false) :
    List.Pairwise (fun a b => a ≠ emptyCombo → b ≠ emptyCombo → a ≠ b)
      (prepareTasks ro cfg jobId table nextId sel0).materialized ∧
    (prepareTasks ro cfg jobId table nextId sel0).materialized.length =
      (prepareTasks ro cfg jobId table nextId sel0).createdCount := by
  constructor
  · rw [prepareTasks]
    apply prepareTasksGo_spec ro cfg jobId hdup cfg.totalCount
    · intro c hc
      simp at hc
    · exact List.Pairwise.nil
  · have h := prepareTasksGo_count ro cfg jobId cfg.totalCount
      ⟨table, nextId, 0, [], sel0, []⟩
    rw [prepareTasks]
    simpa using h

/-- Closed witness for C1 at a concrete preparation run. -/
theorem prepare_tasks_distinct_combos_witness :
    List.Pairwise (fun a b => a ≠ emptyCombo → b ≠ emptyCombo → a ≠ b)
      (prepareTasks roZero cfgFaces3 1 [] 1 selState0).materialized :=
  (prepare_tasks_distinct_combos roZero cfgFaces3 1 [] 1 selState0 rfl).1

end NanoBatch
